import Mathlib

/-!
Shallow embedding of `node-python-struct` (src/index.js): a Python-`struct`-style
binary codec.  The format-string walkers `sizeOf`, `unpackFrom`/`unpack` and
`pack` are translated directly from the source, together with the three codec
registries (`NATIVE_MAP`, `LITTLE_ENDIAN_MAP`, `BIG_ENDIAN_MAP`).

Modelling conventions (external collaborators per the spec's scope):
* Buffers are `List Nat` of bytes; Node's read/write-at-offset primitives are
  modelled byte-exactly (`readUInt32LE`, `writeUInt16BE`, ...).  Out-of-range
  `Uint8Array` index assignment is a no-op (`List.set` semantics), matching JS.
* JS text values are modelled by their UTF-8 byte sequences (`JsValue.str`);
  the UTF-8 encode/decode collaborators then become the identity, so
  `Buffer.byteLength(text)` is the list length.  Single-character values used
  by the `c` codec are modelled by their character code (`JsValue.char`).
* `float`/`double` values are modelled by their IEEE-754 bit patterns
  (`JsValue.f32`/`JsValue.f64`); the external `readFloat*`/`writeFloat*`
  primitives become bit-pattern (de)serialisation.  This is exact for every
  non-NaN pattern (each `binary32` embeds exactly into `binary64`).
* `Long` values (the `long` npm package) are modelled as a pair of 32-bit
  words plus the signedness flag (`JsValue.long`), exactly the bits the
  library stores.
* `new Buffer(n)` is modelled as a zero-filled buffer of length `n`.
* The host configuration is fixed to the source's assumed architecture:
  little-endian, 64-bit (`IS_LITTLE_ENDIAN`, `IS_64bit`).
* Throwing `Error` is modelled by `Except String`.
-/

namespace PyStruct

/-- Host byte order flag, `require('os').endianness() === 'LE'`; fixed to the
little-endian host the source assumes. -/
def IS_LITTLE_ENDIAN : Bool := true

/-- Host pointer-width flag, `process.arch === 'x64'`; fixed to 64-bit. -/
def IS_64bit : Bool := true

/-- A JS value that can flow through the codec: numbers, `Long` objects
(pair of 32-bit words plus unsigned flag), text (as UTF-8 bytes),
single characters (by character code), booleans, and floats (by bit
pattern). -/
inductive JsValue where
  | num (n : Int)
  | long (lo hi : Nat) (unsigned : Bool)
  | str (bytes : List Nat)
  | char (code : Nat)
  | bool (b : Bool)
  | f32 (bits : Nat)
  | f64 (bits : Nat)
deriving DecidableEq, Repr

/-- A Node buffer: a list of bytes. -/
abbrev Buf := List Nat

/-- Read a byte, `data[pos]` (0 for out-of-range, which no claim exercises). -/
def bGet (data : Buf) (pos : Nat) : Nat := data.getD pos 0

/-- Byte store `buf[pos] = v`: `Uint8Array` coerces the value mod 256 and
ignores out-of-range indices. -/
def bSet (buf : Buf) (pos : Nat) (v : Nat) : Buf := buf.set pos (v % 256)

/-- Store a run of bytes starting at `pos`. -/
def bWriteBytes : Buf → Nat → List Nat → Buf
  | buf, _, [] => buf
  | buf, p, b :: rest => bWriteBytes (bSet buf p b) (p + 1) rest

/-- Zero `count` bytes starting at `pos` (clamped to the buffer). -/
def bFillGo : Buf → Nat → Nat → Buf
  | buf, _, 0 => buf
  | buf, p, n + 1 => bFillGo (buf.set p 0) (p + 1) n

/-- `buf.fill(0, start, stop)`. -/
def bFill (buf : Buf) (start stop : Nat) : Buf := bFillGo buf start (stop - start)

/-- `data.slice(start, stop)` for the (possibly negative-length) ranges the
pascal codec produces: empty when `stop ≤ start`, clamped to the buffer. -/
def bSlice (data : Buf) (start : Nat) (stop : Int) : Buf :=
  if stop ≤ (start : Int) then [] else (data.drop start).take (stop.toNat - start)

/-- `data.indexOf(0, pos)` (absolute index of the first zero byte at or after
`pos`, `none` when absent). -/
def bIndexOfZero (data : Buf) (pos : Nat) : Option Nat :=
  ((data.drop pos).findIdx? (fun b => b == 0)).map (fun k => pos + k)

/-- Reinterpret an 8-bit pattern as a signed value. -/
def toSigned8 (n : Nat) : Int := if n < 128 then (n : Int) else (n : Int) - 256

/-- Reinterpret a 16-bit pattern as a signed value. -/
def toSigned16 (n : Nat) : Int := if n < 32768 then (n : Int) else (n : Int) - 65536

/-- Reinterpret a 32-bit pattern as a signed value. -/
def toSigned32 (n : Nat) : Int :=
  if n < 2147483648 then (n : Int) else (n : Int) - 4294967296

/-- Truncate an integer to its low 8 bits (JS `& 0xFF` / `Uint8Array` coercion). -/
def mask8 (v : Int) : Nat := (v % 256).toNat

/-- Truncate an integer to its low 16 bits. -/
def mask16 (v : Int) : Nat := (v % 65536).toNat

/-- Truncate an integer to its low 32 bits. -/
def mask32 (v : Int) : Nat := (v % 4294967296).toNat

/-- `data.readUInt16LE(pos)`. -/
def readUInt16LE (d : Buf) (p : Nat) : Nat := bGet d p + 256 * bGet d (p + 1)

/-- `data.readUInt16BE(pos)`. -/
def readUInt16BE (d : Buf) (p : Nat) : Nat := 256 * bGet d p + bGet d (p + 1)

/-- `data.readUInt32LE(pos)`. -/
def readUInt32LE (d : Buf) (p : Nat) : Nat :=
  bGet d p + 256 * bGet d (p + 1) + 65536 * bGet d (p + 2) + 16777216 * bGet d (p + 3)

/-- `data.readUInt32BE(pos)`. -/
def readUInt32BE (d : Buf) (p : Nat) : Nat :=
  16777216 * bGet d p + 65536 * bGet d (p + 1) + 256 * bGet d (p + 2) + bGet d (p + 3)

/-- `buf.writeUInt16LE(v, pos, true)` (also `writeInt16LE`: both mask to 16 bits). -/
def writeUInt16LE (v : Int) (buf : Buf) (p : Nat) : Buf :=
  let n := mask16 v
  bSet (bSet buf p (n % 256)) (p + 1) (n / 256)

/-- `buf.writeUInt16BE(v, pos, true)`. -/
def writeUInt16BE (v : Int) (buf : Buf) (p : Nat) : Buf :=
  let n := mask16 v
  bSet (bSet buf p (n / 256)) (p + 1) (n % 256)

/-- `buf.writeUInt32LE(v, pos, true)` (also `writeInt32LE`). -/
def writeUInt32LE (v : Int) (buf : Buf) (p : Nat) : Buf :=
  let n := mask32 v
  bSet (bSet (bSet (bSet buf p (n % 256)) (p + 1) (n / 256 % 256))
    (p + 2) (n / 65536 % 256)) (p + 3) (n / 16777216)

/-- `buf.writeUInt32BE(v, pos, true)`. -/
def writeUInt32BE (v : Int) (buf : Buf) (p : Nat) : Buf :=
  let n := mask32 v
  bSet (bSet (bSet (bSet buf p (n / 16777216)) (p + 1) (n / 65536 % 256))
    (p + 2) (n / 256 % 256)) (p + 3) (n % 256)

/-- The 64-bit bit pattern read by `readDoubleLE`, modelled at bit level. -/
def readUInt64LEpat (d : Buf) (p : Nat) : Nat :=
  readUInt32LE d p + 4294967296 * readUInt32LE d (p + 4)

/-- The 64-bit bit pattern read by `readDoubleBE`. -/
def readUInt64BEpat (d : Buf) (p : Nat) : Nat :=
  4294967296 * readUInt32BE d p + readUInt32BE d (p + 4)

/-- `writeDoubleLE` of a value given by its 64-bit pattern. -/
def writeUInt64LEpat (n : Nat) (buf : Buf) (p : Nat) : Buf :=
  writeUInt32LE ((n / 4294967296 % 4294967296 : Nat) : Int)
    (writeUInt32LE ((n % 4294967296 : Nat) : Int) buf p) (p + 4)

/-- `writeDoubleBE` of a value given by its 64-bit pattern. -/
def writeUInt64BEpat (n : Nat) (buf : Buf) (p : Nat) : Buf :=
  writeUInt32BE ((n % 4294967296 : Nat) : Int)
    (writeUInt32BE ((n / 4294967296 % 4294967296 : Nat) : Int) buf p) (p + 4)

/-- JS `ToNumber`-ish coercion for the values the numeric pack codecs receive;
non-numeric objects are modelled as 0 (no claim exercises them). -/
def JsValue.toNumI : JsValue → Int
  | .num n => n
  | .bool b => if b then 1 else 0
  | _ => 0

/-- UTF-8 bytes of a text value (identity under the byte-sequence model). -/
def JsValue.strBytes : JsValue → List Nat
  | .str s => s
  | _ => []

/-- `text.charCodeAt(0)` for the single-character values the `c` codec uses. -/
def JsValue.charCode0 : JsValue → Nat
  | .char u => u
  | _ => 0

/-- Bit pattern of a float value. -/
def JsValue.f32bits : JsValue → Nat
  | .f32 b => b
  | _ => 0

/-- Bit pattern of a double value. -/
def JsValue.f64bits : JsValue → Nat
  | .f64 b => b
  | _ => 0

/-- JS truthiness of a value (used by the `?` pack codec).  Long objects and
characters are truthy; float NaN patterns are modelled as truthy, which no
claim exercises. -/
def JsValue.truthy : JsValue → Bool
  | .bool b => b
  | .num n => n != 0
  | .str s => !s.isEmpty
  | .char _ => true
  | .long _ _ _ => true
  | .f32 b => !(b == 0 || b == 2147483648)
  | .f64 b => !(b == 0 || b == 9223372036854775808)

/-- The two 32-bit words a `Long` stores for this value: a `Long` keeps its own
words; a plain number goes through `Long.fromInt` (truncation to a signed
32-bit value, then sign extension). -/
def JsValue.longBits : JsValue → Nat × Nat
  | .long lo hi _ => (lo % 4294967296, hi % 4294967296)
  | v =>
    let lo := mask32 v.toNumI
    (lo, if 2147483648 ≤ lo then 4294967295 else 0)

/-- `UNPACK_STRING`: scan for the first zero byte, take the shorter of the
declared length / distance to that zero / end of buffer, decode as text. -/
def UNPACK_STRING (data : Buf) (pos len : Nat) : JsValue :=
  let stop := min (pos + len)
    (match bIndexOfZero data pos with
      | none => data.length
      | some i => i)
  .str ((data.drop pos).take (stop - pos))

/-- `PACK_STRING`: write up to `len` text bytes (bounded by the buffer), then
zero-fill the remainder of the declared width. -/
def PACK_STRING (v : JsValue) (buf : Buf) (pos len : Nat) : Buf :=
  let bytes := v.strBytes
  let written := min (min bytes.length len) (buf.length - pos)
  let buf1 := bWriteBytes buf pos (bytes.take written)
  if written < len then bFill buf1 (pos + written) (pos + len) else buf1

/-- `UNPACK_PASCAL_STRING`: note the source reads the count from `data[0]`,
the buffer's first byte, not from `data[pos]`. -/
def UNPACK_PASCAL_STRING (data : Buf) (pos len : Nat) : JsValue :=
  let n0 : Int := bGet data 0
  let n : Int := if (len : Int) ≤ n0 then (len : Int) - 1 else n0
  let p := pos + 1
  .str (bSlice data p ((p : Int) + n))

/-- `PACK_PASCAL_STRING`: note the source stores the clamped count into the
temporary UTF-8 array `bytes` (`bytes[pos] = n`), not into the output buffer,
then copies `bytes[0..n)` to `pack[pos+1..]` and zero-fills the rest. -/
def PACK_PASCAL_STRING (v : JsValue) (buf : Buf) (pos len : Nat) : Buf :=
  let bytes := v.strBytes
  let n1 : Int := bytes.length
  let n2 : Int := if (len : Int) ≤ n1 then (len : Int) - 1 else n1
  let n : Int := if 255 < n2 then 255 else n2
  let bytes2 := bytes.set pos (n % 256).toNat
  let buf1 := bWriteBytes buf (pos + 1) (bytes2.take n.toNat)
  bFill buf1 ((pos : Int) + 1 + n).toNat (pos + len)

/-- `(data, pos) => String.fromCharCode(data[pos])`. -/
def unpackChar (d : Buf) (p : Nat) (_ : Nat) : JsValue := .char (bGet d p)

/-- `(data, pack, pos) => { pack[pos] = data.charCodeAt(0) }`. -/
def packChar (v : JsValue) (buf : Buf) (p : Nat) (_ : Nat) : Buf :=
  bSet buf p v.charCode0

/-- `data.readInt8(pos)`. -/
def unpackInt8 (d : Buf) (p : Nat) (_ : Nat) : JsValue := .num (toSigned8 (bGet d p))

/-- `pack.writeInt8(data, pos, true)`. -/
def packInt8 (v : JsValue) (buf : Buf) (p : Nat) (_ : Nat) : Buf :=
  bSet buf p (mask8 v.toNumI)

/-- `(data, pos) => data[pos]`. -/
def unpackUInt8 (d : Buf) (p : Nat) (_ : Nat) : JsValue := .num (bGet d p)

/-- `(data, pack, pos) => { pack[pos] = data }`. -/
def packUInt8 (v : JsValue) (buf : Buf) (p : Nat) (_ : Nat) : Buf :=
  bSet buf p (mask8 v.toNumI)

/-- `data.readInt16LE(pos)`. -/
def unpackInt16LE (d : Buf) (p : Nat) (_ : Nat) : JsValue :=
  .num (toSigned16 (readUInt16LE d p))

/-- `data.readInt16BE(pos)`. -/
def unpackInt16BE (d : Buf) (p : Nat) (_ : Nat) : JsValue :=
  .num (toSigned16 (readUInt16BE d p))

/-- `data.readUInt16LE(pos)`. -/
def unpackUInt16LE (d : Buf) (p : Nat) (_ : Nat) : JsValue := .num (readUInt16LE d p)

/-- `data.readUInt16BE(pos)`. -/
def unpackUInt16BE (d : Buf) (p : Nat) (_ : Nat) : JsValue := .num (readUInt16BE d p)

/-- `pack.writeInt16LE(data, pos, true)`. -/
def packInt16LE (v : JsValue) (buf : Buf) (p : Nat) (_ : Nat) : Buf :=
  writeUInt16LE v.toNumI buf p

/-- `pack.writeInt16BE(data, pos, true)`. -/
def packInt16BE (v : JsValue) (buf : Buf) (p : Nat) (_ : Nat) : Buf :=
  writeUInt16BE v.toNumI buf p

/-- `pack.writeUInt16LE(data, pos, true)`. -/
def packUInt16LE (v : JsValue) (buf : Buf) (p : Nat) (_ : Nat) : Buf :=
  writeUInt16LE v.toNumI buf p

/-- `pack.writeUInt16BE(data, pos, true)`. -/
def packUInt16BE (v : JsValue) (buf : Buf) (p : Nat) (_ : Nat) : Buf :=
  writeUInt16BE v.toNumI buf p

/-- `UNPACK_UINT32_LE`. -/
def UNPACK_UINT32_LE (d : Buf) (p : Nat) (_ : Nat) : JsValue := .num (readUInt32LE d p)

/-- `UNPACK_UINT32_BE`. -/
def UNPACK_UINT32_BE (d : Buf) (p : Nat) (_ : Nat) : JsValue := .num (readUInt32BE d p)

/-- `UNPACK_INT32_LE`. -/
def UNPACK_INT32_LE (d : Buf) (p : Nat) (_ : Nat) : JsValue :=
  .num (toSigned32 (readUInt32LE d p))

/-- `UNPACK_INT32_BE`. -/
def UNPACK_INT32_BE (d : Buf) (p : Nat) (_ : Nat) : JsValue :=
  .num (toSigned32 (readUInt32BE d p))

/-- `PACK_UINT32_LE`. -/
def PACK_UINT32_LE (v : JsValue) (buf : Buf) (p : Nat) (_ : Nat) : Buf :=
  writeUInt32LE v.toNumI buf p

/-- `PACK_UINT32_BE`. -/
def PACK_UINT32_BE (v : JsValue) (buf : Buf) (p : Nat) (_ : Nat) : Buf :=
  writeUInt32BE v.toNumI buf p

/-- `PACK_INT32_LE`. -/
def PACK_INT32_LE (v : JsValue) (buf : Buf) (p : Nat) (_ : Nat) : Buf :=
  writeUInt32LE v.toNumI buf p

/-- `PACK_INT32_BE`. -/
def PACK_INT32_BE (v : JsValue) (buf : Buf) (p : Nat) (_ : Nat) : Buf :=
  writeUInt32BE v.toNumI buf p

/-- `data.readFloatLE(pos)`, modelled at bit-pattern level. -/
def unpackFloatLE (d : Buf) (p : Nat) (_ : Nat) : JsValue := .f32 (readUInt32LE d p)

/-- `data.readFloatBE(pos)`. -/
def unpackFloatBE (d : Buf) (p : Nat) (_ : Nat) : JsValue := .f32 (readUInt32BE d p)

/-- `pack.writeFloatLE(data, pos, true)`. -/
def packFloatLE (v : JsValue) (buf : Buf) (p : Nat) (_ : Nat) : Buf :=
  writeUInt32LE (v.f32bits : Int) buf p

/-- `pack.writeFloatBE(data, pos, true)`. -/
def packFloatBE (v : JsValue) (buf : Buf) (p : Nat) (_ : Nat) : Buf :=
  writeUInt32BE (v.f32bits : Int) buf p

/-- `data.readDoubleLE(pos)`, modelled at bit-pattern level. -/
def unpackDoubleLE (d : Buf) (p : Nat) (_ : Nat) : JsValue := .f64 (readUInt64LEpat d p)

/-- `data.readDoubleBE(pos)`. -/
def unpackDoubleBE (d : Buf) (p : Nat) (_ : Nat) : JsValue := .f64 (readUInt64BEpat d p)

/-- `pack.writeDoubleLE(data, pos, true)`. -/
def packDoubleLE (v : JsValue) (buf : Buf) (p : Nat) (_ : Nat) : Buf :=
  writeUInt64LEpat v.f64bits buf p

/-- `pack.writeDoubleBE(data, pos, true)`. -/
def packDoubleBE (v : JsValue) (buf : Buf) (p : Nat) (_ : Nat) : Buf :=
  writeUInt64BEpat v.f64bits buf p

/-- `UNPACK_UINT64_LE`: `Long.fromBits(readInt32LE(pos), readInt32LE(pos+4), true)`
(a `Long` stores the two 32-bit patterns). -/
def UNPACK_UINT64_LE (d : Buf) (p : Nat) (_ : Nat) : JsValue :=
  .long (readUInt32LE d p) (readUInt32LE d (p + 4)) true

/-- `UNPACK_UINT64_BE`: low word from `pos+4`, high from `pos`. -/
def UNPACK_UINT64_BE (d : Buf) (p : Nat) (_ : Nat) : JsValue :=
  .long (readUInt32BE d (p + 4)) (readUInt32BE d p) true

/-- `UNPACK_INT64_LE`. -/
def UNPACK_INT64_LE (d : Buf) (p : Nat) (_ : Nat) : JsValue :=
  .long (readUInt32LE d p) (readUInt32LE d (p + 4)) false

/-- `UNPACK_INT64_BE`. -/
def UNPACK_INT64_BE (d : Buf) (p : Nat) (_ : Nat) : JsValue :=
  .long (readUInt32BE d (p + 4)) (readUInt32BE d p) false

/-- `PACK_INT64_LE`: low 32-bit word at `pos`, high at `pos+4`. -/
def PACK_INT64_LE (v : JsValue) (buf : Buf) (p : Nat) (_ : Nat) : Buf :=
  let b := v.longBits
  writeUInt32LE (b.2 : Int) (writeUInt32LE (b.1 : Int) buf p) (p + 4)

/-- `PACK_INT64_BE`: high word at `pos`, low at `pos+4`. -/
def PACK_INT64_BE (v : JsValue) (buf : Buf) (p : Nat) (_ : Nat) : Buf :=
  let b := v.longBits
  writeUInt32BE (b.1 : Int) (writeUInt32BE (b.2 : Int) buf p) (p + 4)

/-- `PACK_UINT64_LE = PACK_INT64_LE`. -/
def PACK_UINT64_LE : JsValue → Buf → Nat → Nat → Buf := PACK_INT64_LE

/-- `PACK_UINT64_BE = PACK_INT64_BE`. -/
def PACK_UINT64_BE : JsValue → Buf → Nat → Nat → Buf := PACK_INT64_BE

/-- `(data, pos) => data[pos] !== 0`. -/
def unpackBool (d : Buf) (p : Nat) (_ : Nat) : JsValue := .bool (bGet d p != 0)

/-- `(data, pack, pos) => { pack[pos] = data ? 1 : 0 }`. -/
def packBool (v : JsValue) (buf : Buf) (p : Nat) (_ : Nat) : Buf :=
  bSet buf p (if v.truthy then 1 else 0)

/-- One registry entry: `[size, alignment, unpack, pack]`. -/
structure OpEntry where
  size : Nat
  align : Nat
  unpackFn : Option (Buf → Nat → Nat → JsValue)
  packFn : Option (JsValue → Buf → Nat → Nat → Buf)

/-- The `NATIVE_MAP` registry (native order, native-ish size and alignment). -/
def NATIVE_MAP : Char → Option OpEntry
  | 'x' => some ⟨1, 1, none, none⟩
  | 'c' => some ⟨1, 1, some unpackChar, some packChar⟩
  | 'b' => some ⟨1, 1, some unpackInt8, some packInt8⟩
  | 'B' => some ⟨1, 1, some unpackUInt8, some packUInt8⟩
  | 'h' => some ⟨2, 2, some (if IS_LITTLE_ENDIAN then unpackInt16LE else unpackInt16BE),
      some (if IS_LITTLE_ENDIAN then packInt16LE else packInt16BE)⟩
  | 'H' => some ⟨2, 2, some (if IS_LITTLE_ENDIAN then unpackUInt16LE else unpackUInt16BE),
      some (if IS_LITTLE_ENDIAN then packUInt16LE else packUInt16BE)⟩
  | 'i' => some ⟨4, 4, some (if IS_LITTLE_ENDIAN then UNPACK_INT32_LE else UNPACK_INT32_BE),
      some (if IS_LITTLE_ENDIAN then PACK_INT32_LE else PACK_INT32_BE)⟩
  | 'I' => some ⟨4, 4, some (if IS_LITTLE_ENDIAN then UNPACK_UINT32_LE else UNPACK_UINT32_BE),
      some (if IS_LITTLE_ENDIAN then PACK_UINT32_LE else PACK_UINT32_BE)⟩
  | 'l' => some ⟨4, 4, some (if IS_LITTLE_ENDIAN then UNPACK_INT32_LE else UNPACK_INT32_BE),
      some (if IS_LITTLE_ENDIAN then PACK_INT32_LE else PACK_INT32_BE)⟩
  | 'L' => some ⟨4, 4, some (if IS_LITTLE_ENDIAN then UNPACK_UINT32_LE else UNPACK_UINT32_BE),
      some (if IS_LITTLE_ENDIAN then PACK_UINT32_LE else PACK_UINT32_BE)⟩
  | 'f' => some ⟨4, 4, some (if IS_LITTLE_ENDIAN then unpackFloatLE else unpackFloatBE),
      some (if IS_LITTLE_ENDIAN then packFloatLE else packFloatBE)⟩
  | 'd' => some ⟨8, 8, some (if IS_LITTLE_ENDIAN then unpackDoubleLE else unpackDoubleBE),
      some (if IS_LITTLE_ENDIAN then packDoubleLE else packDoubleBE)⟩
  | 's' => some ⟨1, 1, some UNPACK_STRING, some PACK_STRING⟩
  | 'p' => some ⟨1, 1, some UNPACK_PASCAL_STRING, some PACK_PASCAL_STRING⟩
  | 'P' => some ⟨if IS_64bit then 8 else 4, if IS_64bit then 8 else 4,
      some (if IS_LITTLE_ENDIAN then (if IS_64bit then UNPACK_UINT64_LE else UNPACK_UINT32_LE)
        else (if IS_64bit then UNPACK_UINT64_BE else UNPACK_UINT32_BE)),
      some (if IS_LITTLE_ENDIAN then (if IS_64bit then PACK_UINT64_LE else PACK_UINT32_LE)
        else (if IS_64bit then PACK_UINT64_BE else PACK_UINT32_BE))⟩
  | 'q' => some ⟨8, 8, some (if IS_LITTLE_ENDIAN then UNPACK_INT64_LE else UNPACK_INT64_BE),
      some (if IS_LITTLE_ENDIAN then PACK_INT64_LE else PACK_INT64_BE)⟩
  | 'Q' => some ⟨8, 8, some (if IS_LITTLE_ENDIAN then UNPACK_UINT64_LE else UNPACK_UINT64_BE),
      some (if IS_LITTLE_ENDIAN then PACK_UINT64_LE else PACK_UINT64_BE)⟩
  | '?' => some ⟨1, 1, some unpackBool, some packBool⟩
  | _ => none

/-- The `LITTLE_ENDIAN_MAP` registry (standard size, alignment 1). -/
def LITTLE_ENDIAN_MAP : Char → Option OpEntry
  | 'x' => some ⟨1, 1, none, none⟩
  | 'c' => some ⟨1, 1, some unpackChar, some packChar⟩
  | 'b' => some ⟨1, 1, some unpackInt8, some packInt8⟩
  | 'B' => some ⟨1, 1, some unpackUInt8, some packUInt8⟩
  | 'h' => some ⟨2, 1, some unpackInt16LE, some packInt16LE⟩
  | 'H' => some ⟨2, 1, some unpackUInt16LE, some packUInt16LE⟩
  | 'i' => some ⟨4, 1, some UNPACK_INT32_LE, some PACK_INT32_LE⟩
  | 'I' => some ⟨4, 1, some UNPACK_UINT32_LE, some PACK_UINT32_LE⟩
  | 'l' => some ⟨4, 1, some UNPACK_INT32_LE, some PACK_INT32_LE⟩
  | 'L' => some ⟨4, 1, some UNPACK_UINT32_LE, some PACK_UINT32_LE⟩
  | 'f' => some ⟨4, 1, some unpackFloatLE, some packFloatLE⟩
  | 'd' => some ⟨8, 1, some unpackDoubleLE, some packDoubleLE⟩
  | 's' => some ⟨1, 1, some UNPACK_STRING, some PACK_STRING⟩
  | 'p' => some ⟨1, 1, some UNPACK_PASCAL_STRING, some PACK_PASCAL_STRING⟩
  | 'P' => some ⟨if IS_64bit then 8 else 4, 1,
      some (if IS_64bit then UNPACK_UINT64_LE else UNPACK_UINT32_LE),
      some (if IS_64bit then PACK_UINT64_LE else PACK_UINT32_LE)⟩
  | 'q' => some ⟨8, 1, some UNPACK_INT64_LE, some PACK_INT64_LE⟩
  | 'Q' => some ⟨8, 1, some UNPACK_UINT64_LE, some PACK_UINT64_LE⟩
  | '?' => some ⟨1, 1, some unpackBool, some packBool⟩
  | _ => none

/-- The `BIG_ENDIAN_MAP` registry (standard size, alignment 1). -/
def BIG_ENDIAN_MAP : Char → Option OpEntry
  | 'x' => some ⟨1, 1, none, none⟩
  | 'c' => some ⟨1, 1, some unpackChar, some packChar⟩
  | 'b' => some ⟨1, 1, some unpackInt8, some packInt8⟩
  | 'B' => some ⟨1, 1, some unpackUInt8, some packUInt8⟩
  | 'h' => some ⟨2, 1, some unpackInt16BE, some packInt16BE⟩
  | 'H' => some ⟨2, 1, some unpackUInt16BE, some packUInt16BE⟩
  | 'i' => some ⟨4, 1, some UNPACK_INT32_BE, some PACK_INT32_BE⟩
  | 'I' => some ⟨4, 1, some UNPACK_UINT32_BE, some PACK_UINT32_BE⟩
  | 'l' => some ⟨4, 1, some UNPACK_INT32_BE, some PACK_INT32_BE⟩
  | 'L' => some ⟨4, 1, some UNPACK_UINT32_BE, some PACK_UINT32_BE⟩
  | 'f' => some ⟨4, 1, some unpackFloatBE, some packFloatBE⟩
  | 'd' => some ⟨8, 1, some unpackDoubleBE, some packDoubleBE⟩
  | 's' => some ⟨1, 1, some UNPACK_STRING, some PACK_STRING⟩
  | 'p' => some ⟨1, 1, some UNPACK_PASCAL_STRING, some PACK_PASCAL_STRING⟩
  | 'P' => some ⟨if IS_64bit then 8 else 4, 1,
      some (if IS_64bit then UNPACK_UINT64_BE else UNPACK_UINT32_BE),
      some (if IS_64bit then PACK_UINT64_BE else PACK_UINT32_BE)⟩
  | 'q' => some ⟨8, 1, some UNPACK_INT64_BE, some PACK_INT64_BE⟩
  | 'Q' => some ⟨8, 1, some UNPACK_UINT64_BE, some PACK_UINT64_BE⟩
  | '?' => some ⟨1, 1, some unpackBool, some packBool⟩
  | _ => none

/-- Result of `selectMap`: the active registry and whether the first format
character was consumed as a byte-order marker. -/
structure Selected where
  map : Char → Option OpEntry
  skipFirst : Bool

/-- `selectMap`: inspect the first character of the format string. -/
def selectMap (format : List Char) : Selected :=
  match format with
  | [] => ⟨NATIVE_MAP, false⟩
  | c :: _ =>
    if c = '<' then ⟨LITTLE_ENDIAN_MAP, true⟩
    else if c = '>' ∨ c = '!' then ⟨BIG_ENDIAN_MAP, true⟩
    else if c = '=' then
      ⟨if IS_LITTLE_ENDIAN then LITTLE_ENDIAN_MAP else BIG_ENDIAN_MAP, true⟩
    else if c = '@' then ⟨NATIVE_MAP, true⟩
    else ⟨NATIVE_MAP, false⟩

/-- `c >= '0' && c <= '9'`. -/
def isDigitCh (c : Char) : Bool := decide ('0' ≤ c ∧ c ≤ '9')

/-- Numeric value of a decimal digit character. -/
def digitVal (c : Char) : Nat := c.toNat - 48

/-- Accumulate one digit into the pending repeat-count literal
(`decimal = decimal === null ? c : decimal + c`, later `parseInt`). -/
def accDecimal (dec : Option Nat) (c : Char) : Option Nat :=
  some (match dec with
    | none => digitVal c
    | some n => n * 10 + digitVal c)

/-- `Math.ceil(n / a) * a`: round `n` up to the next multiple of `a`. -/
def alignUp (n a : Nat) : Nat := ((n + a - 1) / a) * a

/-- Truncated-buffer error message. -/
def truncMsg : String := "Reached end of buffer"

/-- Insufficient-values error message. -/
def needMsg : String := "Reached end of data"

/-- Walker core of `sizeOf`: accumulate the total size over the (prefix-
stripped) format characters, tracking the pending repeat-count literal. -/
def sizeOfAux (map : Char → Option OpEntry) :
    List Char → Nat → Option Nat → Nat
  | [], size, _ => size
  | c :: rest, size, dec =>
    if isDigitCh c then sizeOfAux map rest size (accDecimal dec c)
    else match map c with
      | none => sizeOfAux map rest size dec
      | some op =>
        let size1 := if 1 < op.align then alignUp size op.align else size
        let d := dec.getD 0
        let size2 :=
          if c = 's' then size1 + d
          else if c = 'p' then size1 + (if d = 0 then 1 else d)
          else size1 + op.size * (if d = 0 then 1 else d)
        sizeOfAux map rest size2 none

/-- `sizeOf(format)`. -/
def sizeOf (format : String) : Nat :=
  let sel := selectMap format.data
  sizeOfAux sel.map (if sel.skipFirst then format.data.drop 1 else format.data) 0 none

/-- The per-occurrence loop of `unpackFrom` (`while (repeat > 0)`).  Note the
source advances `position` only inside `if (unpack)`, so occurrences of a
codec-less field (`x`) do not move the cursor. -/
def unpackLoop (fn : Option (Buf → Nat → Nat → JsValue)) (size : Nat) (data : Buf)
    (checkBounds : Bool) (d : Nat) :
    Nat → Nat → List JsValue → Except String (Nat × List JsValue)
  | 0, pos, acc => .ok (pos, acc)
  | r + 1, pos, acc =>
    match fn with
    | some f =>
      if checkBounds ∧ data.length ≤ pos + size then .error truncMsg
      else unpackLoop fn size data checkBounds d r (pos + size) (acc ++ [f data pos d])
    | none => unpackLoop fn size data checkBounds d r pos acc

/-- Walker core of `unpackFrom` over the (prefix-stripped) format characters. -/
def unpackAux (map : Char → Option OpEntry) (data : Buf) (checkBounds : Bool) :
    List Char → Nat → Option Nat → List JsValue → Except String (List JsValue)
  | [], _, _, acc => .ok acc
  | c :: rest, pos, dec, acc =>
    if isDigitCh c then unpackAux map data checkBounds rest pos (accDecimal dec c) acc
    else match map c with
      | none => unpackAux map data checkBounds rest pos dec acc
      | some op =>
        let pos1 := if 1 < op.align then alignUp pos op.align else pos
        let d := dec.getD 0
        let rs : Nat × Nat :=
          if c = 's' then (1, d)
          else if c = 'p' then (1, if d = 0 then 1 else d)
          else (if d = 0 then 1 else d, op.size)
        match unpackLoop op.unpackFn rs.2 data checkBounds d rs.1 pos1 acc with
        | .error e => .error e
        | .ok (pos2, acc2) => unpackAux map data checkBounds rest pos2 none acc2

/-- `unpackFrom(format, data, checkBounds, position)`. -/
def unpackFrom (format : String) (data : Buf) (checkBounds : Bool)
    (position : Nat) : Except String (List JsValue) :=
  let sel := selectMap format.data
  unpackAux sel.map data checkBounds
    (if sel.skipFirst then format.data.drop 1 else format.data) position none []

/-- `unpack(format, data, checkBounds)`. -/
def unpack (format : String) (data : Buf) (checkBounds : Bool) :
    Except String (List JsValue) :=
  unpackFrom format data checkBounds 0

/-- The per-occurrence loop of `pack`.  `position += size` sits outside
`if (pack)`, so pad occurrences do advance the cursor here. -/
def packLoop (fn : Option (JsValue → Buf → Nat → Nat → Buf)) (size : Nat)
    (vals : List JsValue) (checkBounds : Bool) (d : Nat) :
    Nat → Nat → Nat → Buf → Except String (Nat × Nat × Buf)
  | 0, pos, dIndex, buf => .ok (pos, dIndex, buf)
  | r + 1, pos, dIndex, buf =>
    match fn with
    | some f =>
      if checkBounds ∧ vals.length ≤ dIndex then .error needMsg
      else packLoop fn size vals checkBounds d r (pos + size) (dIndex + 1)
        (f (vals.getD dIndex (.num 0)) buf pos d)
    | none => packLoop fn size vals checkBounds d r (pos + size) dIndex buf

/-- Walker core of `pack` over the (prefix-stripped) format characters. -/
def packAux (map : Char → Option OpEntry) (vals : List JsValue) (checkBounds : Bool) :
    List Char → Nat → Option Nat → Nat → Buf → Except String Buf
  | [], _, _, _, buf => .ok buf
  | c :: rest, pos, dec, dIndex, buf =>
    if isDigitCh c then packAux map vals checkBounds rest pos (accDecimal dec c) dIndex buf
    else match map c with
      | none => packAux map vals checkBounds rest pos dec dIndex buf
      | some op =>
        let pos1 := if 1 < op.align then alignUp pos op.align else pos
        let d := dec.getD 0
        let rs : Nat × Nat :=
          if c = 's' then (1, d)
          else if c = 'p' then (1, if d = 0 then 1 else d)
          else (if d = 0 then 1 else d, op.size)
        match packLoop op.packFn rs.2 vals checkBounds d rs.1 pos1 dIndex buf with
        | .error e => .error e
        | .ok (pos2, dIndex2, buf2) =>
          packAux map vals checkBounds rest pos2 none dIndex2 buf2

/-- `pack(format, data, checkBounds)` with an explicit value list (the variadic
call form merely forces `checkBounds = true`).  Allocates a fresh buffer of
`sizeOf(format)` bytes (modelled zero-filled) and walks the format. -/
def pack (format : String) (vals : List JsValue) (checkBounds : Bool) :
    Except String Buf :=
  let sel := selectMap format.data
  packAux sel.map vals checkBounds
    (if sel.skipFirst then format.data.drop 1 else format.data)
    0 none 0 (List.replicate (sizeOf format) 0)

/-- Whether an `Except` computation succeeded. -/
def exceptIsOk {α : Type} : Except String α → Bool
  | .ok _ => true
  | .error _ => false

/-- Spec-side mirror of `unpackLoop` positions: the `(cursor, size)` pairs of
the decoding occurrences one field contributes, and the cursor afterwards. -/
def unpackOccLoop (hasFn : Bool) (size : Nat) : Nat → Nat → Nat × List (Nat × Nat)
  | 0, pos => (pos, [])
  | r + 1, pos =>
    if hasFn then
      let rest := unpackOccLoop hasFn size r (pos + size)
      (rest.1, (pos, size) :: rest.2)
    else unpackOccLoop hasFn size r pos

/-- Spec-side walk computing the `(cursor, size)` of every decoding field
occurrence of a format (cursor advancement is independent of the buffer). -/
def unpackOccAux (map : Char → Option OpEntry) :
    List Char → Nat → Option Nat → List (Nat × Nat)
  | [], _, _ => []
  | c :: rest, pos, dec =>
    if isDigitCh c then unpackOccAux map rest pos (accDecimal dec c)
    else match map c with
      | none => unpackOccAux map rest pos dec
      | some op =>
        let pos1 := if 1 < op.align then alignUp pos op.align else pos
        let d := dec.getD 0
        let rs : Nat × Nat :=
          if c = 's' then (1, d)
          else if c = 'p' then (1, if d = 0 then 1 else d)
          else (if d = 0 then 1 else d, op.size)
        let lp := unpackOccLoop op.unpackFn.isSome rs.2 rs.1 pos1
        lp.2 ++ unpackOccAux map rest lp.1 none

/-- The `(cursor, size)` pairs of all decoding field occurrences of a decode
of `format` starting at `position`, per the claim's words. -/
def unpackOccurrences (format : String) (position : Nat) : List (Nat × Nat) :=
  let sel := selectMap format.data
  unpackOccAux sel.map
    (if sel.skipFirst then format.data.drop 1 else format.data) position none

/-- Spec-side count of the value-consuming field occurrences of a format walk
(occurrences whose entry has an encode function; pads have none). -/
def consumingCountAux (map : Char → Option OpEntry) :
    List Char → Option Nat → Nat
  | [], _ => 0
  | c :: rest, dec =>
    if isDigitCh c then consumingCountAux map rest (accDecimal dec c)
    else match map c with
      | none => consumingCountAux map rest dec
      | some op =>
        let d := dec.getD 0
        let rs : Nat × Nat :=
          if c = 's' then (1, d)
          else if c = 'p' then (1, if d = 0 then 1 else d)
          else (if d = 0 then 1 else d, op.size)
        (if op.packFn.isSome then rs.1 else 0) + consumingCountAux map rest none

/-- Number of value-consuming field occurrences of `format`. -/
def consumingCount (format : String) : Nat :=
  let sel := selectMap format.data
  consumingCountAux sel.map
    (if sel.skipFirst then format.data.drop 1 else format.data) none

/-- The recognised type codes other than the string codes `s` and `p`. -/
def scalarCodes : List Char :=
  ['x', 'c', 'b', 'B', 'h', 'H', 'i', 'I', 'l', 'L', 'f', 'd', 'P', 'q', 'Q', '?']

/-- A 32-bit pattern that is not an IEEE-754 NaN. -/
def notNaN32 (b : Nat) : Prop := b / 8388608 % 256 ≠ 255 ∨ b % 8388608 = 0

/-- A 64-bit pattern that is not an IEEE-754 NaN. -/
def notNaN64 (b : Nat) : Prop :=
  b / 4503599627370496 % 2048 ≠ 2047 ∨ b % 4503599627370496 = 0

/-- The representable range of each type code, per the claim: the set of
values that survive the codec bit-exactly.  Strings under a bare `s`/`p`
(declared length 0 resp. 1) can only hold the empty text; `x` consumes and
produces no value, so its range is empty; float ranges exclude NaN patterns
(NaN is not equal to itself in JS). -/
def inRange (t : Char) (v : JsValue) : Prop :=
  if t = 'c' then match v with | .char u => u < 256 | _ => False
  else if t = 'b' then match v with | .num n => -128 ≤ n ∧ n < 128 | _ => False
  else if t = 'B' then match v with | .num n => 0 ≤ n ∧ n < 256 | _ => False
  else if t = 'h' then match v with | .num n => -32768 ≤ n ∧ n < 32768 | _ => False
  else if t = 'H' then match v with | .num n => 0 ≤ n ∧ n < 65536 | _ => False
  else if t = 'i' ∨ t = 'l' then
    match v with | .num n => -2147483648 ≤ n ∧ n < 2147483648 | _ => False
  else if t = 'I' ∨ t = 'L' then
    match v with | .num n => 0 ≤ n ∧ n < 4294967296 | _ => False
  else if t = 'f' then match v with | .f32 b => b < 4294967296 ∧ notNaN32 b | _ => False
  else if t = 'd' then
    match v with | .f64 b => b < 18446744073709551616 ∧ notNaN64 b | _ => False
  else if t = 'q' then
    match v with
      | .long lo hi u => lo < 4294967296 ∧ hi < 4294967296 ∧ u = false
      | _ => False
  else if t = 'Q' ∨ t = 'P' then
    match v with
      | .long lo hi u => lo < 4294967296 ∧ hi < 4294967296 ∧ u = true
      | _ => False
  else if t = '?' then match v with | .bool _ => True | _ => False
  else if t = 's' ∨ t = 'p' then match v with | .str s => s = [] | _ => False
  else False

/-- Pack one value with a single-code format over a fixed registry and unpack
the resulting buffer again (the composition claim C1 is about, after the
byte-order prefix has selected the registry). -/
def rtM (map : Char → Option OpEntry) (t : Char) (v : JsValue) :
    Except String (List JsValue) :=
  (packAux map [v] false [t] 0 none 0
      (List.replicate (sizeOfAux map [t] 0 none) 0)).bind
    (fun b => unpackAux map b false [t] 0 none [])

/-- C2 (code bug, evaluation at the failing input): decoding does NOT advance
the cursor past pad bytes — `unpackFrom`'s `position += size` sits inside
`if (unpack)`, so for format `"xB"` on bytes `[7, 9]` the `B` field is decoded
at offset 0 (value 7), not offset 1 (value 9) as the claim states, while
`sizeOf` counts the pad byte and `pack` does advance past it (producing
`[0, 9]`), so the three walks do not advance identically. -/
theorem c2_pad_cursor_eval :
    unpack "xB" [7, 9] false = .ok [.num 7] ∧
      pack "xB" [.num 9] false = .ok [0, 9] ∧ sizeOf "xB" = 2 :=
  ⟨rfl, rfl, rfl⟩

/-- C3 (code bug, evaluation at the failing input): `PACK_PASCAL_STRING`
stores the clamped count into the temporary UTF-8 array (`bytes[pos] = n`)
instead of the output buffer, so `pack('5p', ["AB"])` leaves the field's first
output byte unwritten (0 in the zero-filled model; uninitialised memory in
Node) and copies the corrupted content `[2, 66]` — not `[2, 65, 66, 0, 0]`
with count byte 2 followed by the two content bytes as the claim states. -/
theorem c3_pascal_pack_eval :
    pack "5p" [.str [65, 66]] false = .ok [0, 2, 66, 0, 0] :=
  rfl

/-- C4 (code bug, evaluation at the failing input): `UNPACK_PASCAL_STRING`
reads the count from `data[0]` — the buffer's first byte — not from the byte
at the field's start position.  For format `"b3p"` on `[9, 1, 65, 66]` the
pascal field starts at offset 1, so the claim says the count is
`data[1] = 1` giving text `[65]`; the code instead uses `data[0] = 9`,
clamps it to `3 - 1 = 2`, and returns `[65, 66]`. -/
theorem c4_pascal_unpack_eval :
    unpack "b3p" [9, 1, 65, 66] false = .ok [.num 9, .str [65, 66]] :=
  rfl

/-- C6 (counterexample): digits immediately preceding the unrecognised
character `z` are NOT swallowed: `sizeOf("3zi")` is 12 (the `3` applies to
`i`), whereas under the claim it would equal `sizeOf("zi") = sizeOf("i") = 4`. -/
theorem c6_counterexample :
    sizeOf "3zi" = 12 ∧ sizeOf "zi" = 4 ∧ sizeOf "i" = 4 :=
  ⟨rfl, rfl, rfl⟩

/-- C6 (amended): an unrecognised character is skipped WITHOUT clearing the
accumulated repeat-count literal (`continue` precedes the `decimal = null`
reset), so digits before it still apply to the next recognised type code,
identically in `sizeOf`, `unpack`/`unpackFrom` and `pack`: deleting the
unrecognised character changes nothing, and `"3zB"` decodes/encodes three
`B` occurrences. -/
theorem c6_digits_retained :
    (∀ s : List Char, PyStruct.sizeOf ⟨'3' :: 'z' :: s⟩ = PyStruct.sizeOf ⟨'3' :: s⟩) ∧
      (∀ (s : List Char) (data : Buf) (cb : Bool) (p : Nat),
        unpackFrom ⟨'3' :: 'z' :: s⟩ data cb p = unpackFrom ⟨'3' :: s⟩ data cb p) ∧
      (∀ (s : List Char) (vals : List JsValue) (cb : Bool),
        pack ⟨'3' :: 'z' :: s⟩ vals cb = pack ⟨'3' :: s⟩ vals cb) ∧
      unpack "3zB" [1, 2, 3] false = .ok [.num 1, .num 2, .num 3] ∧
      pack "3zB" [.num 1, .num 2, .num 3] false = .ok [1, 2, 3] :=
  ⟨fun _ => rfl, fun _ _ _ _ => rfl, fun _ _ _ => rfl, rfl, rfl⟩

/-- C8 (confirmed): repeat counts multiply (`sizeOf(prefix + "5i") =
5 * sizeOf(prefix + "i")` for every prefix including none), and `"bi"` is the
byte plus alignment padding up to the 4-byte boundary plus the int under the
native-mode prefixes (`@`, absent), but the unpadded 5-byte sum under the
standard-size prefixes (`=`, `<`, `>`, `!`). -/
theorem c8_size_additivity :
    (PyStruct.sizeOf "5i" = 5 * PyStruct.sizeOf "i" ∧
      PyStruct.sizeOf "@5i" = 5 * PyStruct.sizeOf "@i" ∧
      PyStruct.sizeOf "=5i" = 5 * PyStruct.sizeOf "=i" ∧
      PyStruct.sizeOf "<5i" = 5 * PyStruct.sizeOf "<i" ∧
      PyStruct.sizeOf ">5i" = 5 * PyStruct.sizeOf ">i" ∧
      PyStruct.sizeOf "!5i" = 5 * PyStruct.sizeOf "!i") ∧
    (PyStruct.sizeOf "bi" = alignUp (PyStruct.sizeOf "b") 4 + PyStruct.sizeOf "i" ∧
      PyStruct.sizeOf "@bi" = alignUp (PyStruct.sizeOf "b") 4 + PyStruct.sizeOf "@i" ∧
      PyStruct.sizeOf "bi" = 8) ∧
    (PyStruct.sizeOf "=bi" = PyStruct.sizeOf "b" + PyStruct.sizeOf "=i" ∧
      PyStruct.sizeOf "<bi" = PyStruct.sizeOf "b" + PyStruct.sizeOf "<i" ∧
      PyStruct.sizeOf ">bi" = PyStruct.sizeOf "b" + PyStruct.sizeOf ">i" ∧
      PyStruct.sizeOf "!bi" = PyStruct.sizeOf "b" + PyStruct.sizeOf "!i" ∧
      PyStruct.sizeOf "=bi" = 5) :=
  ⟨⟨rfl, rfl, rfl, rfl, rfl, rfl⟩, ⟨rfl, rfl, rfl⟩, ⟨rfl, rfl, rfl, rfl, rfl⟩⟩

/-- C10 (confirmed): for every scalar type code (recognised, not `s`/`p`), an
explicit repeat count of 0 behaves exactly like a count of 1 in `sizeOf`,
`unpackFrom`/`unpack` and `pack` (`decimal || 1` turns 0 into 1), and for the
value-producing codes `unpack` of a `0`-counted field still yields exactly one
value rather than the field contributing nothing. -/
theorem c10_zero_count (c : Char) (hc : c ∈ scalarCodes) :
    PyStruct.sizeOf ⟨['0', c]⟩ = PyStruct.sizeOf ⟨['1', c]⟩ ∧
      (∀ (data : Buf) (cb : Bool) (p : Nat),
        unpackFrom ⟨['0', c]⟩ data cb p = unpackFrom ⟨['1', c]⟩ data cb p) ∧
      (∀ (vals : List JsValue) (cb : Bool),
        pack ⟨['0', c]⟩ vals cb = pack ⟨['1', c]⟩ vals cb) ∧
      (c ≠ 'x' → ∀ data : Buf, ∃ v, unpack ⟨['0', c]⟩ data false = .ok [v]) := by
  fin_cases hc <;>
      refine ⟨rfl, fun _ _ _ => rfl, fun _ _ => rfl, fun h _ => ?_⟩ <;>
    first
      | exact absurd rfl h
      | exact ⟨_, rfl⟩

/-- C10 witness at the code `i` with a concrete buffer. -/
theorem c10_zero_count_witness :
    unpackFrom ⟨['0', 'i']⟩ [1, 2, 3, 4] false 0 =
        unpackFrom ⟨['1', 'i']⟩ [1, 2, 3, 4] false 0 ∧
      PyStruct.sizeOf ⟨['0', 'i']⟩ = PyStruct.sizeOf ⟨['1', 'i']⟩ :=
  ⟨(c10_zero_count 'i' (by decide)).2.1 [1, 2, 3, 4] false 0,
    (c10_zero_count 'i' (by decide)).1⟩

@[simp]
theorem length_bSet (buf : Buf) (p v : Nat) : (bSet buf p v).length = buf.length := by
  simp [bSet]

@[simp]
theorem length_bWriteBytes (bs : List Nat) :
    ∀ (buf : Buf) (p : Nat), (bWriteBytes buf p bs).length = buf.length := by
  induction bs with
  | nil => intro buf p; rfl
  | cons b rest ih => intro buf p; simp [bWriteBytes, ih]

@[simp]
theorem length_bFillGo (n : Nat) :
    ∀ (buf : Buf) (p : Nat), (bFillGo buf p n).length = buf.length := by
  induction n with
  | zero => intro buf p; rfl
  | succ n ih => intro buf p; simp [bFillGo, ih]

@[simp]
theorem length_bFill (buf : Buf) (a b : Nat) : (bFill buf a b).length = buf.length := by
  simp [bFill]

@[simp]
theorem length_writeUInt16LE (v : Int) (buf : Buf) (p : Nat) :
    (writeUInt16LE v buf p).length = buf.length := by
  simp [writeUInt16LE]

@[simp]
theorem length_writeUInt16BE (v : Int) (buf : Buf) (p : Nat) :
    (writeUInt16BE v buf p).length = buf.length := by
  simp [writeUInt16BE]

@[simp]
theorem length_writeUInt32LE (v : Int) (buf : Buf) (p : Nat) :
    (writeUInt32LE v buf p).length = buf.length := by
  simp [writeUInt32LE]

@[simp]
theorem length_writeUInt32BE (v : Int) (buf : Buf) (p : Nat) :
    (writeUInt32BE v buf p).length = buf.length := by
  simp [writeUInt32BE]

@[simp]
theorem length_writeUInt64LEpat (n : Nat) (buf : Buf) (p : Nat) :
    (writeUInt64LEpat n buf p).length = buf.length := by
  simp [writeUInt64LEpat]

@[simp]
theorem length_writeUInt64BEpat (n : Nat) (buf : Buf) (p : Nat) :
    (writeUInt64BEpat n buf p).length = buf.length := by
  simp [writeUInt64BEpat]

@[simp]
theorem length_packChar (v : JsValue) (buf : Buf) (p d : Nat) :
    (packChar v buf p d).length = buf.length := by
  simp [packChar]

@[simp]
theorem length_packInt8 (v : JsValue) (buf : Buf) (p d : Nat) :
    (packInt8 v buf p d).length = buf.length := by
  simp [packInt8]

@[simp]
theorem length_packUInt8 (v : JsValue) (buf : Buf) (p d : Nat) :
    (packUInt8 v buf p d).length = buf.length := by
  simp [packUInt8]

@[simp]
theorem length_packInt16LE (v : JsValue) (buf : Buf) (p d : Nat) :
    (packInt16LE v buf p d).length = buf.length := by
  simp [packInt16LE]

@[simp]
theorem length_packInt16BE (v : JsValue) (buf : Buf) (p d : Nat) :
    (packInt16BE v buf p d).length = buf.length := by
  simp [packInt16BE]

@[simp]
theorem length_packUInt16LE (v : JsValue) (buf : Buf) (p d : Nat) :
    (packUInt16LE v buf p d).length = buf.length := by
  simp [packUInt16LE]

@[simp]
theorem length_packUInt16BE (v : JsValue) (buf : Buf) (p d : Nat) :
    (packUInt16BE v buf p d).length = buf.length := by
  simp [packUInt16BE]

@[simp]
theorem length_PACK_INT32_LE (v : JsValue) (buf : Buf) (p d : Nat) :
    (PACK_INT32_LE v buf p d).length = buf.length := by
  simp [PACK_INT32_LE]

@[simp]
theorem length_PACK_INT32_BE (v : JsValue) (buf : Buf) (p d : Nat) :
    (PACK_INT32_BE v buf p d).length = buf.length := by
  simp [PACK_INT32_BE]

@[simp]
theorem length_PACK_UINT32_LE (v : JsValue) (buf : Buf) (p d : Nat) :
    (PACK_UINT32_LE v buf p d).length = buf.length := by
  simp [PACK_UINT32_LE]

@[simp]
theorem length_PACK_UINT32_BE (v : JsValue) (buf : Buf) (p d : Nat) :
    (PACK_UINT32_BE v buf p d).length = buf.length := by
  simp [PACK_UINT32_BE]

@[simp]
theorem length_packFloatLE (v : JsValue) (buf : Buf) (p d : Nat) :
    (packFloatLE v buf p d).length = buf.length := by
  simp [packFloatLE]

@[simp]
theorem length_packFloatBE (v : JsValue) (buf : Buf) (p d : Nat) :
    (packFloatBE v buf p d).length = buf.length := by
  simp [packFloatBE]

@[simp]
theorem length_packDoubleLE (v : JsValue) (buf : Buf) (p d : Nat) :
    (packDoubleLE v buf p d).length = buf.length := by
  simp [packDoubleLE]

@[simp]
theorem length_packDoubleBE (v : JsValue) (buf : Buf) (p d : Nat) :
    (packDoubleBE v buf p d).length = buf.length := by
  simp [packDoubleBE]

@[simp]
theorem length_PACK_INT64_LE (v : JsValue) (buf : Buf) (p d : Nat) :
    (PACK_INT64_LE v buf p d).length = buf.length := by
  simp [PACK_INT64_LE]

@[simp]
theorem length_PACK_INT64_BE (v : JsValue) (buf : Buf) (p d : Nat) :
    (PACK_INT64_BE v buf p d).length = buf.length := by
  simp [PACK_INT64_BE]

@[simp]
theorem length_PACK_UINT64_LE (v : JsValue) (buf : Buf) (p d : Nat) :
    (PACK_UINT64_LE v buf p d).length = buf.length := by
  simp [PACK_UINT64_LE]

@[simp]
theorem length_PACK_UINT64_BE (v : JsValue) (buf : Buf) (p d : Nat) :
    (PACK_UINT64_BE v buf p d).length = buf.length := by
  simp [PACK_UINT64_BE]

@[simp]
theorem length_PACK_STRING (v : JsValue) (buf : Buf) (p d : Nat) :
    (PACK_STRING v buf p d).length = buf.length := by
  simp only [PACK_STRING]
  split <;> simp

@[simp]
theorem length_PACK_PASCAL_STRING (v : JsValue) (buf : Buf) (p d : Nat) :
    (PACK_PASCAL_STRING v buf p d).length = buf.length := by
  simp [PACK_PASCAL_STRING]

@[simp]
theorem length_packBool (v : JsValue) (buf : Buf) (p d : Nat) :
    (packBool v buf p d).length = buf.length := by
  simp [packBool]

/-- Every encode function of the native registry preserves buffer length. -/
theorem packFn_length_native :
    ∀ (c : Char) (op : OpEntry), NATIVE_MAP c = some op →
      ∀ f, op.packFn = some f →
        ∀ (v : JsValue) (b : Buf) (p d : Nat), (f v b p d).length = b.length := by
  intro c op h f hf v b p d
  unfold NATIVE_MAP at h
  split at h <;>
    first
      | exact Option.noConfusion h
      | (injection h with h2; subst h2;
         first
           | exact Option.noConfusion hf
           | (injection hf with hf2; subst hf2; simp [IS_LITTLE_ENDIAN, IS_64bit]))

/-- Every encode function of the little-endian registry preserves length. -/
theorem packFn_length_le :
    ∀ (c : Char) (op : OpEntry), LITTLE_ENDIAN_MAP c = some op →
      ∀ f, op.packFn = some f →
        ∀ (v : JsValue) (b : Buf) (p d : Nat), (f v b p d).length = b.length := by
  intro c op h f hf v b p d
  unfold LITTLE_ENDIAN_MAP at h
  split at h <;>
    first
      | exact Option.noConfusion h
      | (injection h with h2; subst h2;
         first
           | exact Option.noConfusion hf
           | (injection hf with hf2; subst hf2; simp [IS_LITTLE_ENDIAN, IS_64bit]))

/-- Every encode function of the big-endian registry preserves length. -/
theorem packFn_length_be :
    ∀ (c : Char) (op : OpEntry), BIG_ENDIAN_MAP c = some op →
      ∀ f, op.packFn = some f →
        ∀ (v : JsValue) (b : Buf) (p d : Nat), (f v b p d).length = b.length := by
  intro c op h f hf v b p d
  unfold BIG_ENDIAN_MAP at h
  split at h <;>
    first
      | exact Option.noConfusion h
      | (injection h with h2; subst h2;
         first
           | exact Option.noConfusion hf
           | (injection hf with hf2; subst hf2; simp [IS_LITTLE_ENDIAN, IS_64bit]))

/-- The registry chosen by `selectMap` is one of the three tables. -/
theorem selectMap_map_cases (l : List Char) :
    (selectMap l).map = NATIVE_MAP ∨ (selectMap l).map = LITTLE_ENDIAN_MAP ∨
      (selectMap l).map = BIG_ENDIAN_MAP := by
  cases l with
  | nil => exact Or.inl rfl
  | cons c rest =>
    unfold selectMap
    by_cases h1 : c = '<'
    · simp [h1]
    · by_cases h2 : c = '>' ∨ c = '!'
      · simp [h1, h2]
      · by_cases h3 : c = '='
        · simp [h1, h2, h3, IS_LITTLE_ENDIAN]
        · by_cases h4 : c = '@'
          · simp [h1, h2, h3, h4]
          · simp [h1, h2, h3, h4]

/-- `packLoop` preserves buffer length, given its codec does. -/
theorem packLoop_length (fn : Option (JsValue → Buf → Nat → Nat → Buf)) (size : Nat)
    (vals : List JsValue) (cb : Bool) (d : Nat)
    (hfn : ∀ f, fn = some f →
      ∀ (v : JsValue) (b : Buf) (p dd : Nat), (f v b p dd).length = b.length) :
    ∀ (r pos dI : Nat) (buf : Buf) (res : Nat × Nat × Buf),
      packLoop fn size vals cb d r pos dI buf = .ok res →
        res.2.2.length = buf.length := by
  intro r
  induction r with
  | zero =>
    intro pos dI buf res h
    simp only [packLoop] at h
    cases h
    rfl
  | succ r ih =>
    intro pos dI buf res h
    rcases fn with _ | f
    · simp only [packLoop] at h
      exact ih _ _ _ _ h
    · simp only [packLoop] at h
      by_cases hc : (cb = true) ∧ vals.length ≤ dI
      · rw [if_pos hc] at h
        exact Except.noConfusion h
      · rw [if_neg hc] at h
        exact (ih _ _ _ _ h).trans (hfn f rfl _ _ _ _)

/-- `packAux` preserves buffer length, given every codec of the registry does. -/
theorem packAux_length (map : Char → Option OpEntry) (vals : List JsValue) (cb : Bool)
    (hmap : ∀ (c : Char) (op : OpEntry), map c = some op →
      ∀ f, op.packFn = some f →
        ∀ (v : JsValue) (b : Buf) (p dd : Nat), (f v b p dd).length = b.length) :
    ∀ (chars : List Char) (pos : Nat) (dec : Option Nat) (dI : Nat) (buf res : Buf),
      packAux map vals cb chars pos dec dI buf = .ok res →
        res.length = buf.length := by
  intro chars
  induction chars with
  | nil =>
    intro pos dec dI buf res h
    simp only [packAux] at h
    cases h
    rfl
  | cons c rest ih =>
    intro pos dec dI buf res h
    simp only [packAux] at h
    by_cases hd : isDigitCh c = true
    · rw [if_pos hd] at h
      exact ih _ _ _ _ _ h
    · rw [if_neg hd] at h
      split at h
      · exact ih _ _ _ _ _ h
      · rename_i op hop
        split at h
        · exact Except.noConfusion h
        · rename_i pos2 dI2 buf2 heq
          exact (ih _ _ _ _ _ h).trans
            (packLoop_length _ _ _ _ _ (fun f hf => hmap c op hop f hf) _ _ _ _ _ heq)

/-- C7 (confirmed): whenever `pack` completes, the returned buffer has exactly
`sizeOf(format)` bytes — `pack` allocates `new Buffer(sizeOf(format))` (the
method reference written `PythonStruct.sizeOf`, resolved as in the repo's
object-literal copy of the module) and every codec writes in place. -/
theorem c7_pack_length (format : String) (vals : List JsValue) (cb : Bool) (buf : Buf)
    (h : pack format vals cb = .ok buf) : buf.length = PyStruct.sizeOf format := by
  unfold pack at h
  have hmap : ∀ (c : Char) (op : OpEntry), (selectMap format.data).map c = some op →
      ∀ f, op.packFn = some f →
        ∀ (v : JsValue) (b : Buf) (p dd : Nat), (f v b p dd).length = b.length := by
    rcases selectMap_map_cases format.data with h1 | h1 | h1 <;> rw [h1]
    · exact packFn_length_native
    · exact packFn_length_le
    · exact packFn_length_be
  have h2 := packAux_length _ _ _ hmap _ _ _ _ _ _ h
  simpa using h2

/-- C7 witness: a concrete completed `pack` whose output length is checked
against `sizeOf`. -/
theorem c7_pack_length_witness : ([5, 0, 0, 0] : Buf).length = PyStruct.sizeOf "i" :=
  c7_pack_length "i" [.num 5] false [5, 0, 0, 0] rfl

/-- A codec-less (`x`) field's `packLoop` only advances the cursor. -/
theorem packLoop_none_eq (size : Nat) (vals : List JsValue) (cb : Bool) (d : Nat) :
    ∀ (r pos dI : Nat) (buf : Buf),
      packLoop none size vals cb d r pos dI buf = .ok (pos + size * r, dI, buf) := by
  intro r
  induction r with
  | zero => intro pos dI buf; simp [packLoop]
  | succ r ih =>
    intro pos dI buf
    simp only [packLoop]
    rw [ih]
    ring_nf

/-- On success, a value-consuming `packLoop` consumed exactly its repeat
count of values. -/
theorem packLoop_some_dIndex (f : JsValue → Buf → Nat → Nat → Buf) (size : Nat)
    (vals : List JsValue) (cb : Bool) (d : Nat) :
    ∀ (r pos dI : Nat) (buf : Buf) (res : Nat × Nat × Buf),
      packLoop (some f) size vals cb d r pos dI buf = .ok res → res.2.1 = dI + r := by
  intro r
  induction r with
  | zero =>
    intro pos dI buf res h
    simp only [packLoop] at h
    cases h
    rfl
  | succ r ih =>
    intro pos dI buf res h
    simp only [packLoop] at h
    by_cases hc : (cb = true) ∧ vals.length ≤ dI
    · rw [if_pos hc] at h
      exact Except.noConfusion h
    · rw [if_neg hc] at h
      have := ih _ _ _ _ h
      omega

/-- A bounds-checked value-consuming `packLoop` succeeds exactly when all its
occurrences have a corresponding next value. -/
theorem packLoop_some_ok_iff (f : JsValue → Buf → Nat → Nat → Buf) (size : Nat)
    (vals : List JsValue) (d : Nat) :
    ∀ (r pos dI : Nat) (buf : Buf),
      exceptIsOk (packLoop (some f) size vals true d r pos dI buf) = true ↔
        (r = 0 ∨ dI + r ≤ vals.length) := by
  intro r
  induction r with
  | zero =>
    intro pos dI buf
    simp [packLoop, exceptIsOk]
  | succ r ih =>
    intro pos dI buf
    simp only [packLoop]
    by_cases hc : vals.length ≤ dI
    · rw [if_pos ⟨by trivial, hc⟩]
      simp only [exceptIsOk]
      constructor
      · intro h
        exact Bool.noConfusion h
      · intro h
        omega
    · rw [if_neg (fun hand => hc hand.2)]
      rw [ih]
      omega

/-- A bounds-checked `packAux` succeeds exactly when, starting from value
index `dI`, every value-consuming occurrence has a corresponding value. -/
theorem packAux_ok_iff (map : Char → Option OpEntry) (vals : List JsValue) :
    ∀ (chars : List Char) (dec : Option Nat) (pos dI : Nat) (buf : Buf),
      exceptIsOk (packAux map vals true chars pos dec dI buf) = true ↔
        (consumingCountAux map chars dec = 0 ∨
          dI + consumingCountAux map chars dec ≤ vals.length) := by
  intro chars
  induction chars with
  | nil =>
    intro dec pos dI buf
    simp [packAux, consumingCountAux, exceptIsOk]
  | cons c rest ih =>
    intro dec pos dI buf
    by_cases hd : isDigitCh c = true
    · simp only [packAux, consumingCountAux, if_pos hd]
      exact ih _ _ _ _
    · rcases hmc : map c with _ | op
      · simp only [packAux, consumingCountAux, if_neg hd, hmc]
        exact ih _ _ _ _
      · simp only [packAux, consumingCountAux, if_neg hd, hmc]
        generalize hrs : (if c = 's' then ((1 : Nat), dec.getD 0)
            else if c = 'p' then ((1 : Nat), if dec.getD 0 = 0 then 1 else dec.getD 0)
            else (if dec.getD 0 = 0 then 1 else dec.getD 0, op.size)) = rs
        have hrep : 1 ≤ rs.1 := by
          rw [← hrs]
          split_ifs <;> (dsimp only; omega)
        rcases hop : op.packFn with _ | f
        · rw [packLoop_none_eq]
          simp only [Option.isSome_none, Bool.false_eq_true, if_false, Nat.zero_add]
          exact ih _ _ _ _
        · simp only [Option.isSome_some, if_true]
          by_cases hok : dI + rs.1 ≤ vals.length
          · rcases hres : packLoop (some f) rs.2 vals true (dec.getD 0) rs.1
                (if 1 < op.align then alignUp pos op.align else pos) dI buf with e | res
            · have hcon := (packLoop_some_ok_iff f rs.2 vals (dec.getD 0) rs.1
                (if 1 < op.align then alignUp pos op.align else pos) dI buf).mpr (Or.inr hok)
              rw [hres] at hcon
              exact absurd hcon (by simp [exceptIsOk])
            · obtain ⟨pos2, dI2, buf2⟩ := res
              have hdI2 := packLoop_some_dIndex f rs.2 vals true (dec.getD 0) rs.1
                (if 1 < op.align then alignUp pos op.align else pos) dI buf _ hres
              dsimp only at hdI2 ⊢
              rw [ih]
              omega
          · rcases hres : packLoop (some f) rs.2 vals true (dec.getD 0) rs.1
                (if 1 < op.align then alignUp pos op.align else pos) dI buf with e | res
            · dsimp only
              simp only [exceptIsOk]
              constructor
              · intro hcon
                exact Bool.noConfusion hcon
              · intro hcon
                omega
            · have hcon := (packLoop_some_ok_iff f rs.2 vals (dec.getD 0) rs.1
                (if 1 < op.align then alignUp pos op.align else pos) dI buf).mp
                (by rw [hres]; rfl)
              exact absurd hcon (by omega)

/-- A run of pad codes selects the native registry without consuming a prefix
character. -/
theorem selectMap_pads (n : Nat) :
    selectMap (List.replicate n 'x') = ⟨NATIVE_MAP, false⟩ := by
  cases n <;> rfl

/-- Pad fields contribute no value-consuming occurrence. -/
theorem consumingCountAux_pads (n : Nat) :
    ∀ dec, consumingCountAux NATIVE_MAP (List.replicate n 'x') dec = 0 := by
  induction n with
  | zero => intro dec; rfl
  | succ n ih =>
    intro dec
    rw [List.replicate_succ]
    show 0 + consumingCountAux NATIVE_MAP (List.replicate n 'x') none = 0
    rw [Nat.zero_add]
    exact ih none

/-- C9 (confirmed): with bounds checking requested, `pack` raises the
insufficient-values error exactly when some value-consuming field occurrence
has no corresponding next value, i.e. exactly when the number of
value-consuming occurrences exceeds the value sequence's length (the error is
thrown at the first such occurrence, before writing it); pad fields have no
encode function, consume no value, and so never trigger it — a pure-pad
format packs successfully with an empty value sequence. -/
theorem c9_insufficient_values :
    (∀ (format : String) (vals : List JsValue),
      exceptIsOk (pack format vals true) = true ↔
        consumingCount format ≤ vals.length) ∧
    (∀ n : Nat, exceptIsOk (pack ⟨List.replicate n 'x'⟩ [] true) = true) := by
  have main : ∀ (format : String) (vals : List JsValue),
      exceptIsOk (pack format vals true) = true ↔
        consumingCount format ≤ vals.length := by
    intro format vals
    simp only [pack, consumingCount]
    rw [packAux_ok_iff]
    constructor
    · intro h
      rcases h with h | h <;> omega
    · intro h
      omega
  refine ⟨main, fun n => ?_⟩
  rw [main]
  show consumingCount ⟨List.replicate n 'x'⟩ ≤ 0
  unfold consumingCount
  simp only [selectMap_pads, Bool.false_eq_true, if_false]
  rw [consumingCountAux_pads]

/-- A codec-less (`x`) field's decode loop does nothing at all (the cursor
advance sits inside `if (unpack)`). -/
theorem unpackLoop_none_eq (size : Nat) (data : Buf) (cb : Bool) (d : Nat) :
    ∀ (r pos : Nat) (acc : List JsValue),
      unpackLoop none size data cb d r pos acc = .ok (pos, acc) := by
  intro r
  induction r with
  | zero => intro pos acc; rfl
  | succ r ih => intro pos acc; simp only [unpackLoop]; exact ih _ _

/-- A codec-less field likewise contributes no decoding occurrence. -/
theorem unpackOccLoop_false_eq (size : Nat) :
    ∀ (r pos : Nat), unpackOccLoop false size r pos = (pos, []) := by
  intro r
  induction r with
  | zero => intro pos; rfl
  | succ r ih => intro pos; simp only [unpackOccLoop]; exact ih _

/-- On success, a decoding loop ends at the cursor the occurrence walk
computes. -/
theorem unpackLoop_some_pos (f : Buf → Nat → Nat → JsValue) (size : Nat) (data : Buf)
    (cb : Bool) (d : Nat) :
    ∀ (r pos : Nat) (acc : List JsValue) (res : Nat × List JsValue),
      unpackLoop (some f) size data cb d r pos acc = .ok res →
        res.1 = (unpackOccLoop true size r pos).1 := by
  intro r
  induction r with
  | zero =>
    intro pos acc res h
    simp only [unpackLoop] at h
    cases h
    rfl
  | succ r ih =>
    intro pos acc res h
    simp only [unpackLoop] at h
    by_cases hc : (cb = true) ∧ data.length ≤ pos + size
    · rw [if_pos hc] at h
      exact Except.noConfusion h
    · rw [if_neg hc] at h
      simp only [unpackOccLoop, if_pos rfl]
      exact ih _ _ _ h

/-- A bounds-checked decoding loop succeeds exactly when every one of its
occurrences lies strictly inside the buffer. -/
theorem unpackLoop_some_ok_iff (f : Buf → Nat → Nat → JsValue) (size : Nat)
    (data : Buf) (d : Nat) :
    ∀ (r pos : Nat) (acc : List JsValue),
      exceptIsOk (unpackLoop (some f) size data true d r pos acc) = true ↔
        ∀ o ∈ (unpackOccLoop true size r pos).2, o.1 + o.2 < data.length := by
  intro r
  induction r with
  | zero =>
    intro pos acc
    simp [unpackLoop, unpackOccLoop, exceptIsOk]
  | succ r ih =>
    intro pos acc
    simp only [unpackLoop, unpackOccLoop, if_pos rfl]
    by_cases hc : data.length ≤ pos + size
    · rw [if_pos ⟨by trivial, hc⟩]
      simp only [exceptIsOk]
      constructor
      · intro hcon
        exact Bool.noConfusion hcon
      · intro hall
        have := hall (pos, size) (by simp)
        omega
    · rw [if_neg (fun hand => hc hand.2)]
      rw [ih]
      constructor
      · intro hall o ho
        rcases List.mem_cons.mp ho with rfl | ho2
        · simpa using Nat.lt_of_not_le hc
        · exact hall o ho2
      · intro hall o ho
        exact hall o (List.mem_cons_of_mem _ ho)

/-- A bounds-checked `unpackAux` succeeds exactly when every decoding field
occurrence of the remaining format lies strictly inside the buffer. -/
theorem unpackAux_ok_iff (map : Char → Option OpEntry) (data : Buf) :
    ∀ (chars : List Char) (pos : Nat) (dec : Option Nat) (acc : List JsValue),
      exceptIsOk (unpackAux map data true chars pos dec acc) = true ↔
        ∀ o ∈ unpackOccAux map chars pos dec, o.1 + o.2 < data.length := by
  intro chars
  induction chars with
  | nil =>
    intro pos dec acc
    simp [unpackAux, unpackOccAux, exceptIsOk]
  | cons c rest ih =>
    intro pos dec acc
    by_cases hd : isDigitCh c = true
    · simp only [unpackAux, unpackOccAux, if_pos hd]
      exact ih _ _ _
    · rcases hmc : map c with _ | op
      · simp only [unpackAux, unpackOccAux, if_neg hd, hmc]
        exact ih _ _ _
      · simp only [unpackAux, unpackOccAux, if_neg hd, hmc]
        generalize (if c = 's' then ((1 : Nat), dec.getD 0)
            else if c = 'p' then ((1 : Nat), if dec.getD 0 = 0 then 1 else dec.getD 0)
            else (if dec.getD 0 = 0 then 1 else dec.getD 0, op.size)) = rs
        rcases hop : op.unpackFn with _ | f
        · rw [unpackLoop_none_eq]
          simp only [Option.isSome_none, unpackOccLoop_false_eq, List.nil_append]
          exact ih _ _ _
        · simp only [Option.isSome_some]
          rcases hres : unpackLoop (some f) rs.2 data true (dec.getD 0) rs.1
              (if 1 < op.align then alignUp pos op.align else pos) acc with e | res
          · dsimp only
            have hloop := unpackLoop_some_ok_iff f rs.2 data (dec.getD 0) rs.1
              (if 1 < op.align then alignUp pos op.align else pos) acc
            rw [hres] at hloop
            simp only [exceptIsOk] at hloop
            constructor
            · intro hcon
              exact Bool.noConfusion hcon
            · intro hall
              have : ∀ o ∈ (unpackOccLoop true rs.2 rs.1
                  (if 1 < op.align then alignUp pos op.align else pos)).2,
                  o.1 + o.2 < data.length := by
                intro o ho
                exact hall o (List.mem_append_left _ ho)
              exact Bool.noConfusion (hloop.mpr this)
          · obtain ⟨pos2, acc2⟩ := res
            have hloop := unpackLoop_some_ok_iff f rs.2 data (dec.getD 0) rs.1
              (if 1 < op.align then alignUp pos op.align else pos) acc
            rw [hres] at hloop
            simp only [exceptIsOk, true_iff] at hloop
            have hpos := unpackLoop_some_pos f rs.2 data true (dec.getD 0) rs.1
              (if 1 < op.align then alignUp pos op.align else pos) acc _ hres
            dsimp only at hpos ⊢
            rw [ih, ← hpos]
            constructor
            · intro hall o ho
              rcases List.mem_append.mp ho with ho2 | ho2
              · exact hloop o ho2
              · exact hall o ho2
            · intro hall o ho
              exact hall o (List.mem_append_right _ ho)

/-- C5 (confirmed): with bounds checking requested, `unpack`/`unpackFrom`
raise the truncated-buffer error exactly when some decoding field occurrence
satisfies `position + size >= data.length` at its cursor (the check runs
before that field is read; the only error the decoder raises is this one);
in particular `unpack('i', <3-byte buffer>, true)` raises it. -/
theorem c5_truncation_check :
    (∀ (format : String) (data : Buf) (position : Nat),
      exceptIsOk (unpackFrom format data true position) = false ↔
        ∃ o ∈ unpackOccurrences format position, data.length ≤ o.1 + o.2) ∧
      unpack "i" [0, 0, 0] true = .error truncMsg := by
  refine ⟨fun format data position => ?_, rfl⟩
  simp only [unpackFrom, unpackOccurrences]
  constructor
  · intro h
    have h2 : ¬(exceptIsOk (unpackAux (selectMap format.data).map data true
        (if (selectMap format.data).skipFirst = true then format.data.drop 1
          else format.data) position none []) = true) := by
      rw [h]
      exact Bool.noConfusion
    rw [unpackAux_ok_iff] at h2
    push_neg at h2
    exact h2
  · intro h
    obtain ⟨o, ho, hlen⟩ := h
    cases hb : exceptIsOk (unpackAux (selectMap format.data).map data true
        (if (selectMap format.data).skipFirst = true then format.data.drop 1
          else format.data) position none []) with
    | false => rfl
    | true =>
      rw [unpackAux_ok_iff] at hb
      have := hb o ho
      omega

/-- Aligning position 0 is a no-op. -/
theorem alignUp_zero (a : Nat) : alignUp 0 a = 0 := by
  unfold alignUp
  rcases a with _ | a
  · rfl
  · rw [Nat.zero_add, Nat.succ_sub_one, Nat.div_eq_of_lt (Nat.lt_succ_self a),
      Nat.zero_mul]

/-- Packing then unpacking one scalar-coded value over a fixed registry
reduces to the composition of the entry's encode and decode functions on a
fresh buffer of the entry's size. -/
theorem rtM_scalar (map : Char → Option OpEntry) (c : Char) (sz al : Nat)
    (uf : Buf → Nat → Nat → JsValue) (pf : JsValue → Buf → Nat → Nat → Buf)
    (h : map c = some ⟨sz, al, some uf, some pf⟩)
    (hd : isDigitCh c = false) (hs : c ≠ 's') (hp : c ≠ 'p') (v : JsValue) :
    rtM map c v = .ok [uf (pf v (List.replicate sz 0) 0 0) 0 0] := by
  simp [rtM, sizeOfAux, packAux, packLoop, unpackAux, unpackLoop, h, hd, hs, hp,
    alignUp_zero, ite_self]
  rfl

/-- Round trip of `c` over the little-endian registry. -/
theorem rtLE_c (u : Nat) (h : u < 256) :
    rtM LITTLE_ENDIAN_MAP 'c' (.char u) = .ok [.char u] := by
  rw [rtM_scalar LITTLE_ENDIAN_MAP 'c' 1 1 unpackChar packChar rfl rfl
    (by decide) (by decide)]
  simp only [unpackChar, packChar, JsValue.charCode0, bSet, bGet, List.replicate,
    List.set_cons_zero, List.getD_cons_zero, Except.ok.injEq, List.cons.injEq, and_true,
    JsValue.char.injEq]
  omega

/-- Round trip of `b` over the little-endian registry. -/
theorem rtLE_b (n : Int) (h : -128 ≤ n ∧ n < 128) :
    rtM LITTLE_ENDIAN_MAP 'b' (.num n) = .ok [.num n] := by
  rw [rtM_scalar LITTLE_ENDIAN_MAP 'b' 1 1 unpackInt8 packInt8 rfl rfl
    (by decide) (by decide)]
  simp only [unpackInt8, packInt8, JsValue.toNumI, mask8, toSigned8, bSet, bGet,
    List.replicate, List.set_cons_zero, List.getD_cons_zero, Except.ok.injEq,
    List.cons.injEq, and_true, JsValue.num.injEq]
  split_ifs <;> omega

/-- Round trip of `B` over the little-endian registry. -/
theorem rtLE_B (n : Int) (h : 0 ≤ n ∧ n < 256) :
    rtM LITTLE_ENDIAN_MAP 'B' (.num n) = .ok [.num n] := by
  rw [rtM_scalar LITTLE_ENDIAN_MAP 'B' 1 1 unpackUInt8 packUInt8 rfl rfl
    (by decide) (by decide)]
  simp only [unpackUInt8, packUInt8, JsValue.toNumI, mask8, bSet, bGet,
    List.replicate, List.set_cons_zero, List.getD_cons_zero, Except.ok.injEq,
    List.cons.injEq, and_true, JsValue.num.injEq]
  omega

/-- Round trip of `h` over the little-endian registry. -/
theorem rtLE_h (n : Int) (h : -32768 ≤ n ∧ n < 32768) :
    rtM LITTLE_ENDIAN_MAP 'h' (.num n) = .ok [.num n] := by
  rw [rtM_scalar LITTLE_ENDIAN_MAP 'h' 2 1 unpackInt16LE packInt16LE rfl rfl
    (by decide) (by decide)]
  simp only [unpackInt16LE, packInt16LE, JsValue.toNumI, writeUInt16LE, readUInt16LE,
    mask16, toSigned16, bSet, bGet, List.replicate, List.set_cons_zero, List.set_cons_succ,
    List.getD_cons_zero, List.getD_cons_succ, Except.ok.injEq, List.cons.injEq, and_true,
    JsValue.num.injEq]
  split_ifs <;> omega

/-- Round trip of `H` over the little-endian registry. -/
theorem rtLE_H (n : Int) (h : 0 ≤ n ∧ n < 65536) :
    rtM LITTLE_ENDIAN_MAP 'H' (.num n) = .ok [.num n] := by
  rw [rtM_scalar LITTLE_ENDIAN_MAP 'H' 2 1 unpackUInt16LE packUInt16LE rfl rfl
    (by decide) (by decide)]
  simp only [unpackUInt16LE, packUInt16LE, JsValue.toNumI, writeUInt16LE, readUInt16LE,
    mask16, bSet, bGet, List.replicate, List.set_cons_zero, List.set_cons_succ,
    List.getD_cons_zero, List.getD_cons_succ, Except.ok.injEq, List.cons.injEq, and_true,
    JsValue.num.injEq]
  omega

/-- Round trip of `i` over the little-endian registry. -/
theorem rtLE_i (n : Int) (h : -2147483648 ≤ n ∧ n < 2147483648) :
    rtM LITTLE_ENDIAN_MAP 'i' (.num n) = .ok [.num n] := by
  rw [rtM_scalar LITTLE_ENDIAN_MAP 'i' 4 1 UNPACK_INT32_LE PACK_INT32_LE rfl rfl
    (by decide) (by decide)]
  simp only [UNPACK_INT32_LE, PACK_INT32_LE, JsValue.toNumI, writeUInt32LE, readUInt32LE,
    mask32, toSigned32, bSet, bGet, List.replicate, List.set_cons_zero, List.set_cons_succ,
    List.getD_cons_zero, List.getD_cons_succ, Except.ok.injEq, List.cons.injEq, and_true,
    JsValue.num.injEq]
  split_ifs <;> omega

/-- Round trip of `I` over the little-endian registry. -/
theorem rtLE_I (n : Int) (h : 0 ≤ n ∧ n < 4294967296) :
    rtM LITTLE_ENDIAN_MAP 'I' (.num n) = .ok [.num n] := by
  rw [rtM_scalar LITTLE_ENDIAN_MAP 'I' 4 1 UNPACK_UINT32_LE PACK_UINT32_LE rfl rfl
    (by decide) (by decide)]
  simp only [UNPACK_UINT32_LE, PACK_UINT32_LE, JsValue.toNumI, writeUInt32LE, readUInt32LE,
    mask32, bSet, bGet, List.replicate, List.set_cons_zero, List.set_cons_succ,
    List.getD_cons_zero, List.getD_cons_succ, Except.ok.injEq, List.cons.injEq, and_true,
    JsValue.num.injEq]
  omega

/-- Round trip of `l` over the little-endian registry. -/
theorem rtLE_l (n : Int) (h : -2147483648 ≤ n ∧ n < 2147483648) :
    rtM LITTLE_ENDIAN_MAP 'l' (.num n) = .ok [.num n] := by
  rw [rtM_scalar LITTLE_ENDIAN_MAP 'l' 4 1 UNPACK_INT32_LE PACK_INT32_LE rfl rfl
    (by decide) (by decide)]
  simp only [UNPACK_INT32_LE, PACK_INT32_LE, JsValue.toNumI, writeUInt32LE, readUInt32LE,
    mask32, toSigned32, bSet, bGet, List.replicate, List.set_cons_zero, List.set_cons_succ,
    List.getD_cons_zero, List.getD_cons_succ, Except.ok.injEq, List.cons.injEq, and_true,
    JsValue.num.injEq]
  split_ifs <;> omega

/-- Round trip of `L` over the little-endian registry. -/
theorem rtLE_L (n : Int) (h : 0 ≤ n ∧ n < 4294967296) :
    rtM LITTLE_ENDIAN_MAP 'L' (.num n) = .ok [.num n] := by
  rw [rtM_scalar LITTLE_ENDIAN_MAP 'L' 4 1 UNPACK_UINT32_LE PACK_UINT32_LE rfl rfl
    (by decide) (by decide)]
  simp only [UNPACK_UINT32_LE, PACK_UINT32_LE, JsValue.toNumI, writeUInt32LE, readUInt32LE,
    mask32, bSet, bGet, List.replicate, List.set_cons_zero, List.set_cons_succ,
    List.getD_cons_zero, List.getD_cons_succ, Except.ok.injEq, List.cons.injEq, and_true,
    JsValue.num.injEq]
  omega

/-- Round trip of `f` over the little-endian registry (bit-pattern model). -/
theorem rtLE_f (b : Nat) (h : b < 4294967296 ∧ notNaN32 b) :
    rtM LITTLE_ENDIAN_MAP 'f' (.f32 b) = .ok [.f32 b] := by
  rw [rtM_scalar LITTLE_ENDIAN_MAP 'f' 4 1 unpackFloatLE packFloatLE rfl rfl
    (by decide) (by decide)]
  simp only [unpackFloatLE, packFloatLE, JsValue.f32bits, writeUInt32LE, readUInt32LE,
    mask32, bSet, bGet, List.replicate, List.set_cons_zero, List.set_cons_succ,
    List.getD_cons_zero, List.getD_cons_succ, Except.ok.injEq, List.cons.injEq, and_true,
    JsValue.f32.injEq]
  omega

/-- Round trip of `d` over the little-endian registry (bit-pattern model). -/
theorem rtLE_d (b : Nat) (h : b < 18446744073709551616 ∧ notNaN64 b) :
    rtM LITTLE_ENDIAN_MAP 'd' (.f64 b) = .ok [.f64 b] := by
  rw [rtM_scalar LITTLE_ENDIAN_MAP 'd' 8 1 unpackDoubleLE packDoubleLE rfl rfl
    (by decide) (by decide)]
  simp only [unpackDoubleLE, packDoubleLE, JsValue.f64bits, readUInt64LEpat,
    writeUInt64LEpat, writeUInt32LE, readUInt32LE, mask32, bSet, bGet, List.replicate,
    List.set_cons_zero, List.set_cons_succ, List.getD_cons_zero, List.getD_cons_succ,
    Except.ok.injEq, List.cons.injEq, and_true, JsValue.f64.injEq]
  omega

/-- Round trip of `q` over the little-endian registry. -/
theorem rtLE_q (lo hi : Nat) (u : Bool)
    (h : lo < 4294967296 ∧ hi < 4294967296 ∧ u = false) :
    rtM LITTLE_ENDIAN_MAP 'q' (.long lo hi u) = .ok [.long lo hi u] := by
  obtain ⟨h1, h2, rfl⟩ := h
  rw [rtM_scalar LITTLE_ENDIAN_MAP 'q' 8 1 UNPACK_INT64_LE PACK_INT64_LE rfl rfl
    (by decide) (by decide)]
  simp only [UNPACK_INT64_LE, PACK_INT64_LE, JsValue.longBits]
  simp only [writeUInt32LE, readUInt32LE, mask32, bSet, bGet, List.replicate,
    List.set_cons_zero, List.set_cons_succ, List.getD_cons_zero, List.getD_cons_succ,
    Except.ok.injEq, List.cons.injEq, and_true, JsValue.long.injEq]
  omega

/-- Round trip of `Q` over the little-endian registry. -/
theorem rtLE_Q (lo hi : Nat) (u : Bool)
    (h : lo < 4294967296 ∧ hi < 4294967296 ∧ u = true) :
    rtM LITTLE_ENDIAN_MAP 'Q' (.long lo hi u) = .ok [.long lo hi u] := by
  obtain ⟨h1, h2, rfl⟩ := h
  rw [rtM_scalar LITTLE_ENDIAN_MAP 'Q' 8 1 UNPACK_UINT64_LE PACK_UINT64_LE rfl rfl
    (by decide) (by decide)]
  simp only [UNPACK_UINT64_LE, PACK_UINT64_LE, PACK_INT64_LE, JsValue.longBits]
  simp only [writeUInt32LE, readUInt32LE, mask32, bSet, bGet, List.replicate,
    List.set_cons_zero, List.set_cons_succ, List.getD_cons_zero, List.getD_cons_succ,
    Except.ok.injEq, List.cons.injEq, and_true, JsValue.long.injEq]
  omega

/-- Round trip of `P` over the little-endian registry (64-bit host). -/
theorem rtLE_P (lo hi : Nat) (u : Bool)
    (h : lo < 4294967296 ∧ hi < 4294967296 ∧ u = true) :
    rtM LITTLE_ENDIAN_MAP 'P' (.long lo hi u) = .ok [.long lo hi u] := by
  obtain ⟨h1, h2, rfl⟩ := h
  rw [rtM_scalar LITTLE_ENDIAN_MAP 'P' 8 1 UNPACK_UINT64_LE PACK_UINT64_LE rfl rfl
    (by decide) (by decide)]
  simp only [UNPACK_UINT64_LE, PACK_UINT64_LE, PACK_INT64_LE, JsValue.longBits]
  simp only [writeUInt32LE, readUInt32LE, mask32, bSet, bGet, List.replicate,
    List.set_cons_zero, List.set_cons_succ, List.getD_cons_zero, List.getD_cons_succ,
    Except.ok.injEq, List.cons.injEq, and_true, JsValue.long.injEq]
  omega

/-- Round trip of `?` over the little-endian registry. -/
theorem rtLE_bool (b : Bool) :
    rtM LITTLE_ENDIAN_MAP '?' (.bool b) = .ok [.bool b] := by
  rw [rtM_scalar LITTLE_ENDIAN_MAP '?' 1 1 unpackBool packBool rfl rfl
    (by decide) (by decide)]
  cases b <;> rfl

/-- Round trip of a bare `s` (declared length 0, empty text) over the
little-endian registry. -/
theorem rtLE_s (s : List Nat) (h : s = []) :
    rtM LITTLE_ENDIAN_MAP 's' (.str s) = .ok [.str s] := by
  subst h
  rfl

/-- Round trip of a bare `p` (field width 1, empty text) over the
little-endian registry. -/
theorem rtLE_p (s : List Nat) (h : s = []) :
    rtM LITTLE_ENDIAN_MAP 'p' (.str s) = .ok [.str s] := by
  subst h
  rfl

/-- Round trip of `c` over the big-endian registry. -/
theorem rtBE_c (u : Nat) (h : u < 256) :
    rtM BIG_ENDIAN_MAP 'c' (.char u) = .ok [.char u] := by
  rw [rtM_scalar BIG_ENDIAN_MAP 'c' 1 1 unpackChar packChar rfl rfl
    (by decide) (by decide)]
  simp only [unpackChar, packChar, JsValue.charCode0, bSet, bGet, List.replicate,
    List.set_cons_zero, List.getD_cons_zero, Except.ok.injEq, List.cons.injEq, and_true,
    JsValue.char.injEq]
  omega

/-- Round trip of `b` over the big-endian registry. -/
theorem rtBE_b (n : Int) (h : -128 ≤ n ∧ n < 128) :
    rtM BIG_ENDIAN_MAP 'b' (.num n) = .ok [.num n] := by
  rw [rtM_scalar BIG_ENDIAN_MAP 'b' 1 1 unpackInt8 packInt8 rfl rfl
    (by decide) (by decide)]
  simp only [unpackInt8, packInt8, JsValue.toNumI, mask8, toSigned8, bSet, bGet,
    List.replicate, List.set_cons_zero, List.getD_cons_zero, Except.ok.injEq,
    List.cons.injEq, and_true, JsValue.num.injEq]
  split_ifs <;> omega

/-- Round trip of `B` over the big-endian registry. -/
theorem rtBE_B (n : Int) (h : 0 ≤ n ∧ n < 256) :
    rtM BIG_ENDIAN_MAP 'B' (.num n) = .ok [.num n] := by
  rw [rtM_scalar BIG_ENDIAN_MAP 'B' 1 1 unpackUInt8 packUInt8 rfl rfl
    (by decide) (by decide)]
  simp only [unpackUInt8, packUInt8, JsValue.toNumI, mask8, bSet, bGet,
    List.replicate, List.set_cons_zero, List.getD_cons_zero, Except.ok.injEq,
    List.cons.injEq, and_true, JsValue.num.injEq]
  omega

/-- Round trip of `h` over the big-endian registry. -/
theorem rtBE_h (n : Int) (h : -32768 ≤ n ∧ n < 32768) :
    rtM BIG_ENDIAN_MAP 'h' (.num n) = .ok [.num n] := by
  rw [rtM_scalar BIG_ENDIAN_MAP 'h' 2 1 unpackInt16BE packInt16BE rfl rfl
    (by decide) (by decide)]
  simp only [unpackInt16BE, packInt16BE, JsValue.toNumI, writeUInt16BE, readUInt16BE,
    mask16, toSigned16, bSet, bGet, List.replicate, List.set_cons_zero, List.set_cons_succ,
    List.getD_cons_zero, List.getD_cons_succ, Except.ok.injEq, List.cons.injEq, and_true,
    JsValue.num.injEq]
  split_ifs <;> omega

/-- Round trip of `H` over the big-endian registry. -/
theorem rtBE_H (n : Int) (h : 0 ≤ n ∧ n < 65536) :
    rtM BIG_ENDIAN_MAP 'H' (.num n) = .ok [.num n] := by
  rw [rtM_scalar BIG_ENDIAN_MAP 'H' 2 1 unpackUInt16BE packUInt16BE rfl rfl
    (by decide) (by decide)]
  simp only [unpackUInt16BE, packUInt16BE, JsValue.toNumI, writeUInt16BE, readUInt16BE,
    mask16, bSet, bGet, List.replicate, List.set_cons_zero, List.set_cons_succ,
    List.getD_cons_zero, List.getD_cons_succ, Except.ok.injEq, List.cons.injEq, and_true,
    JsValue.num.injEq]
  omega

/-- Round trip of `i` over the big-endian registry. -/
theorem rtBE_i (n : Int) (h : -2147483648 ≤ n ∧ n < 2147483648) :
    rtM BIG_ENDIAN_MAP 'i' (.num n) = .ok [.num n] := by
  rw [rtM_scalar BIG_ENDIAN_MAP 'i' 4 1 UNPACK_INT32_BE PACK_INT32_BE rfl rfl
    (by decide) (by decide)]
  simp only [UNPACK_INT32_BE, PACK_INT32_BE, JsValue.toNumI, writeUInt32BE, readUInt32BE,
    mask32, toSigned32, bSet, bGet, List.replicate, List.set_cons_zero, List.set_cons_succ,
    List.getD_cons_zero, List.getD_cons_succ, Except.ok.injEq, List.cons.injEq, and_true,
    JsValue.num.injEq]
  split_ifs <;> omega

/-- Round trip of `I` over the big-endian registry. -/
theorem rtBE_I (n : Int) (h : 0 ≤ n ∧ n < 4294967296) :
    rtM BIG_ENDIAN_MAP 'I' (.num n) = .ok [.num n] := by
  rw [rtM_scalar BIG_ENDIAN_MAP 'I' 4 1 UNPACK_UINT32_BE PACK_UINT32_BE rfl rfl
    (by decide) (by decide)]
  simp only [UNPACK_UINT32_BE, PACK_UINT32_BE, JsValue.toNumI, writeUInt32BE, readUInt32BE,
    mask32, bSet, bGet, List.replicate, List.set_cons_zero, List.set_cons_succ,
    List.getD_cons_zero, List.getD_cons_succ, Except.ok.injEq, List.cons.injEq, and_true,
    JsValue.num.injEq]
  omega

/-- Round trip of `l` over the big-endian registry. -/
theorem rtBE_l (n : Int) (h : -2147483648 ≤ n ∧ n < 2147483648) :
    rtM BIG_ENDIAN_MAP 'l' (.num n) = .ok [.num n] := by
  rw [rtM_scalar BIG_ENDIAN_MAP 'l' 4 1 UNPACK_INT32_BE PACK_INT32_BE rfl rfl
    (by decide) (by decide)]
  simp only [UNPACK_INT32_BE, PACK_INT32_BE, JsValue.toNumI, writeUInt32BE, readUInt32BE,
    mask32, toSigned32, bSet, bGet, List.replicate, List.set_cons_zero, List.set_cons_succ,
    List.getD_cons_zero, List.getD_cons_succ, Except.ok.injEq, List.cons.injEq, and_true,
    JsValue.num.injEq]
  split_ifs <;> omega

/-- Round trip of `L` over the big-endian registry. -/
theorem rtBE_L (n : Int) (h : 0 ≤ n ∧ n < 4294967296) :
    rtM BIG_ENDIAN_MAP 'L' (.num n) = .ok [.num n] := by
  rw [rtM_scalar BIG_ENDIAN_MAP 'L' 4 1 UNPACK_UINT32_BE PACK_UINT32_BE rfl rfl
    (by decide) (by decide)]
  simp only [UNPACK_UINT32_BE, PACK_UINT32_BE, JsValue.toNumI, writeUInt32BE, readUInt32BE,
    mask32, bSet, bGet, List.replicate, List.set_cons_zero, List.set_cons_succ,
    List.getD_cons_zero, List.getD_cons_succ, Except.ok.injEq, List.cons.injEq, and_true,
    JsValue.num.injEq]
  omega

/-- Round trip of `f` over the big-endian registry (bit-pattern model). -/
theorem rtBE_f (b : Nat) (h : b < 4294967296 ∧ notNaN32 b) :
    rtM BIG_ENDIAN_MAP 'f' (.f32 b) = .ok [.f32 b] := by
  rw [rtM_scalar BIG_ENDIAN_MAP 'f' 4 1 unpackFloatBE packFloatBE rfl rfl
    (by decide) (by decide)]
  simp only [unpackFloatBE, packFloatBE, JsValue.f32bits, writeUInt32BE, readUInt32BE,
    mask32, bSet, bGet, List.replicate, List.set_cons_zero, List.set_cons_succ,
    List.getD_cons_zero, List.getD_cons_succ, Except.ok.injEq, List.cons.injEq, and_true,
    JsValue.f32.injEq]
  omega

/-- Round trip of `d` over the big-endian registry (bit-pattern model). -/
theorem rtBE_d (b : Nat) (h : b < 18446744073709551616 ∧ notNaN64 b) :
    rtM BIG_ENDIAN_MAP 'd' (.f64 b) = .ok [.f64 b] := by
  rw [rtM_scalar BIG_ENDIAN_MAP 'd' 8 1 unpackDoubleBE packDoubleBE rfl rfl
    (by decide) (by decide)]
  simp only [unpackDoubleBE, packDoubleBE, JsValue.f64bits, readUInt64BEpat,
    writeUInt64BEpat, writeUInt32BE, readUInt32BE, mask32, bSet, bGet, List.replicate,
    List.set_cons_zero, List.set_cons_succ, List.getD_cons_zero, List.getD_cons_succ,
    Except.ok.injEq, List.cons.injEq, and_true, JsValue.f64.injEq]
  omega

/-- Round trip of `q` over the big-endian registry. -/
theorem rtBE_q (lo hi : Nat) (u : Bool)
    (h : lo < 4294967296 ∧ hi < 4294967296 ∧ u = false) :
    rtM BIG_ENDIAN_MAP 'q' (.long lo hi u) = .ok [.long lo hi u] := by
  obtain ⟨h1, h2, rfl⟩ := h
  rw [rtM_scalar BIG_ENDIAN_MAP 'q' 8 1 UNPACK_INT64_BE PACK_INT64_BE rfl rfl
    (by decide) (by decide)]
  simp only [UNPACK_INT64_BE, PACK_INT64_BE, JsValue.longBits]
  simp only [writeUInt32BE, readUInt32BE, mask32, bSet, bGet, List.replicate,
    List.set_cons_zero, List.set_cons_succ, List.getD_cons_zero, List.getD_cons_succ,
    Except.ok.injEq, List.cons.injEq, and_true, JsValue.long.injEq]
  omega

/-- Round trip of `Q` over the big-endian registry. -/
theorem rtBE_Q (lo hi : Nat) (u : Bool)
    (h : lo < 4294967296 ∧ hi < 4294967296 ∧ u = true) :
    rtM BIG_ENDIAN_MAP 'Q' (.long lo hi u) = .ok [.long lo hi u] := by
  obtain ⟨h1, h2, rfl⟩ := h
  rw [rtM_scalar BIG_ENDIAN_MAP 'Q' 8 1 UNPACK_UINT64_BE PACK_UINT64_BE rfl rfl
    (by decide) (by decide)]
  simp only [UNPACK_UINT64_BE, PACK_UINT64_BE, PACK_INT64_BE, JsValue.longBits]
  simp only [writeUInt32BE, readUInt32BE, mask32, bSet, bGet, List.replicate,
    List.set_cons_zero, List.set_cons_succ, List.getD_cons_zero, List.getD_cons_succ,
    Except.ok.injEq, List.cons.injEq, and_true, JsValue.long.injEq]
  omega

/-- Round trip of `P` over the big-endian registry (64-bit host). -/
theorem rtBE_P (lo hi : Nat) (u : Bool)
    (h : lo < 4294967296 ∧ hi < 4294967296 ∧ u = true) :
    rtM BIG_ENDIAN_MAP 'P' (.long lo hi u) = .ok [.long lo hi u] := by
  obtain ⟨h1, h2, rfl⟩ := h
  rw [rtM_scalar BIG_ENDIAN_MAP 'P' 8 1 UNPACK_UINT64_BE PACK_UINT64_BE rfl rfl
    (by decide) (by decide)]
  simp only [UNPACK_UINT64_BE, PACK_UINT64_BE, PACK_INT64_BE, JsValue.longBits]
  simp only [writeUInt32BE, readUInt32BE, mask32, bSet, bGet, List.replicate,
    List.set_cons_zero, List.set_cons_succ, List.getD_cons_zero, List.getD_cons_succ,
    Except.ok.injEq, List.cons.injEq, and_true, JsValue.long.injEq]
  omega

/-- Round trip of `?` over the big-endian registry. -/
theorem rtBE_bool (b : Bool) :
    rtM BIG_ENDIAN_MAP '?' (.bool b) = .ok [.bool b] := by
  rw [rtM_scalar BIG_ENDIAN_MAP '?' 1 1 unpackBool packBool rfl rfl
    (by decide) (by decide)]
  cases b <;> rfl

/-- Round trip of a bare `s` over the big-endian registry. -/
theorem rtBE_s (s : List Nat) (h : s = []) :
    rtM BIG_ENDIAN_MAP 's' (.str s) = .ok [.str s] := by
  subst h
  rfl

/-- Round trip of a bare `p` over the big-endian registry. -/
theorem rtBE_p (s : List Nat) (h : s = []) :
    rtM BIG_ENDIAN_MAP 'p' (.str s) = .ok [.str s] := by
  subst h
  rfl

/-- The `<`-prefixed single-code round trip is the little-endian registry
round trip. -/
theorem rt_lt (t : Char) (v : JsValue) :
    (pack ⟨['<', t]⟩ [v] false).bind (fun b => unpack ⟨['<', t]⟩ b false) =
      rtM LITTLE_ENDIAN_MAP t v :=
  rfl

/-- The `>`-prefixed round trip is the big-endian registry round trip. -/
theorem rt_gt (t : Char) (v : JsValue) :
    (pack ⟨['>', t]⟩ [v] false).bind (fun b => unpack ⟨['>', t]⟩ b false) =
      rtM BIG_ENDIAN_MAP t v :=
  rfl

/-- The `!`-prefixed round trip is the big-endian registry round trip. -/
theorem rt_bang (t : Char) (v : JsValue) :
    (pack ⟨['!', t]⟩ [v] false).bind (fun b => unpack ⟨['!', t]⟩ b false) =
      rtM BIG_ENDIAN_MAP t v :=
  rfl

/-- The `=`-prefixed round trip is the little-endian registry round trip on
this (little-endian) host. -/
theorem rt_eq2 (t : Char) (v : JsValue) :
    (pack ⟨['=', t]⟩ [v] false).bind (fun b => unpack ⟨['=', t]⟩ b false) =
      rtM LITTLE_ENDIAN_MAP t v :=
  rfl

attribute [irreducible] rtM

/-- C1 (confirmed): for every supported type code and every value in its
representable range (`inRange`), packing and unpacking with a format built
from any of the four explicit byte-order prefixes returns exactly that value
(bounds checking at its defaults, i.e. off).  Floats are compared as bit
patterns (non-NaN, where the external float primitives are exact); `Long`
values as their stored word pair plus signedness. -/
theorem c1_round_trip (pfx t : Char) (v : JsValue)
    (hp : pfx ∈ ['<', '>', '!', '='])
    (ht : t ∈ ['x', 'c', 'b', 'B', 'h', 'H', 'i', 'I', 'l', 'L', 'f', 'd', 's', 'p',
      'P', 'q', 'Q', '?'])
    (hv : inRange t v) :
    (pack ⟨[pfx, t]⟩ [v] false).bind (fun b => unpack ⟨[pfx, t]⟩ b false) = .ok [v] := by
  have key : ∀ m : Char → Option OpEntry,
      m = LITTLE_ENDIAN_MAP ∨ m = BIG_ENDIAN_MAP → rtM m t v = .ok [v] := by
    intro m hm
    rcases hm with rfl | rfl <;>
      fin_cases ht <;>
        cases v <;>
          simp only [inRange, reduceIte] at hv <;>
            first
              | exact hv.elim
              | exact rtLE_c _ hv
              | exact rtLE_b _ hv
              | exact rtLE_B _ hv
              | exact rtLE_h _ hv
              | exact rtLE_H _ hv
              | exact rtLE_i _ hv
              | exact rtLE_I _ hv
              | exact rtLE_l _ hv
              | exact rtLE_L _ hv
              | exact rtLE_f _ hv
              | exact rtLE_d _ hv
              | exact rtLE_q _ _ _ hv
              | exact rtLE_Q _ _ _ hv
              | exact rtLE_P _ _ _ hv
              | exact rtLE_bool _
              | exact rtLE_s _ hv
              | exact rtLE_p _ hv
              | exact rtBE_c _ hv
              | exact rtBE_b _ hv
              | exact rtBE_B _ hv
              | exact rtBE_h _ hv
              | exact rtBE_H _ hv
              | exact rtBE_i _ hv
              | exact rtBE_I _ hv
              | exact rtBE_l _ hv
              | exact rtBE_L _ hv
              | exact rtBE_f _ hv
              | exact rtBE_d _ hv
              | exact rtBE_q _ _ _ hv
              | exact rtBE_Q _ _ _ hv
              | exact rtBE_P _ _ _ hv
              | exact rtBE_bool _
              | exact rtBE_s _ hv
              | exact rtBE_p _ hv
  have hp4 : pfx = '<' ∨ pfx = '>' ∨ pfx = '!' ∨ pfx = '=' := by simpa using hp
  rcases hp4 with rfl | rfl | rfl | rfl
  · exact (rt_lt t v).trans (key _ (Or.inl rfl))
  · exact (rt_gt t v).trans (key _ (Or.inr rfl))
  · exact (rt_bang t v).trans (key _ (Or.inr rfl))
  · exact (rt_eq2 t v).trans (key _ (Or.inl rfl))

/-- C1 witness at `fmt = "<i"`, `v = 42`. -/
theorem c1_round_trip_witness :
    (pack ⟨['<', 'i']⟩ [.num 42] false).bind
        (fun b => unpack ⟨['<', 'i']⟩ b false) = .ok [.num 42] :=
  c1_round_trip '<' 'i' (.num 42) (by decide) (by decide)
    (by show -2147483648 ≤ (42 : Int) ∧ (42 : Int) < 2147483648; omega)

end PyStruct
